import Mathlib

set_option maxRecDepth 16384

/-!
Verification of the PharmaGEN conversational assistant (app.py).

The development shallowly embeds the Python source: strings are Lean
strings (lists of characters), Python dictionaries holding the session
state become a structure, the external Gemini completion service becomes
an oracle record whose calls may succeed or raise, and the regular
expressions of the report extraction are modelled by explicit scanning
functions over character lists with the same matching semantics
(leftmost match, case-insensitive literal headers, lazy capture bounded
by an alternation of the later headers or the end-of-text anchor).
-/

/-! ## Character-list utilities shared by the embedding -/

/-- Case-insensitive prefix test: the model of matching the literal
characters of a regex pattern compiled with IGNORECASE at the head of
the text.  Mirrors Python comparing both sides through lower-casing. -/
def matchesAt : List Char → List Char → Bool
  | [], _ => true
  | _ :: _, [] => false
  | p :: ps, c :: cs => p.toLower == c.toLower && matchesAt ps cs

/-- Index of the leftmost case-insensitive occurrence of a pattern, the
model of re.search locating where a pattern that starts with a literal
header can begin. -/
def findCI (pat : List Char) : List Char → Option Nat
  | [] => if matchesAt pat [] then some 0 else none
  | c :: cs => if matchesAt pat (c :: cs) then some 0 else (findCI pat cs).map (· + 1)

/-- Exact (case-sensitive) prefix test, for the Python operator in on
strings. -/
def prefixAt : List Char → List Char → Bool
  | [], _ => true
  | _ :: _, [] => false
  | p :: ps, c :: cs => p == c && prefixAt ps cs

/-- Exact substring containment, the model of the Python operator in on
strings. -/
def listContains (pat : List Char) : List Char → Bool
  | [] => prefixAt pat []
  | c :: cs => prefixAt pat (c :: cs) || listContains pat cs

/-- Model of the Python str.strip method with no argument: drop
whitespace from both ends.  Python strips a slightly larger Unicode
whitespace class; every string this program strips only carries the
ASCII whitespace that Char.isWhitespace covers. -/
def pyStrip (l : List Char) : List Char :=
  ((l.dropWhile Char.isWhitespace).reverse.dropWhile Char.isWhitespace).reverse

/-- Model of the Python str.lower method, ASCII letters only (the
language names and error texts the program lowers are ASCII). -/
def pyLower (l : List Char) : List Char := l.map Char.toLower

/-- Worker for pyTitle: the Boolean records whether the previous
character was alphabetic (cased), in which case the next letter is
lowered instead of raised. -/
def titleGo : Bool → List Char → List Char
  | _, [] => []
  | prevAlpha, c :: cs =>
    (if c.isAlpha then (if prevAlpha then c.toLower else c.toUpper) else c) ::
      titleGo c.isAlpha cs

/-- Model of the Python str.title method: the first letter of every
maximal alphabetic run is upper-cased and the rest lower-cased. -/
def pyTitle (l : List Char) : List Char := titleGo false l

/-- Split once at the first colon, the model of the Python call
split with separator colon and maxsplit 1: some (before, after) when a
colon occurs, none otherwise (the Python call then returns a
one-element list). -/
def splitFirstColon : List Char → Option (List Char × List Char)
  | [] => none
  | ':' :: rest => some ([], rest)
  | c :: rest => (splitFirstColon rest).map (fun pr => (c :: pr.1, pr.2))

/-- Prepend a chunk onto the first piece of a split result (helper for
reasoning about splitHashes on concatenations). -/
def modHead (x : List Char) : List (List Char) → List (List Char)
  | [] => [x]
  | p :: ps => (x ++ p) :: ps

/-- Model of the Python call split on the three-character separator
used by the report: non-overlapping, leftmost-first, empty pieces
kept, exactly as str.split with a separator argument behaves. -/
def splitHashes : List Char → List (List Char)
  | '#' :: '#' :: '#' :: rest => [] :: splitHashes rest
  | c :: rest => modHead [c] (splitHashes rest)
  | [] => [[]]

/-- Replace the second component of the last pair, the model of the
assignment history[-1][1] = bot guarded by the source's emptiness
check (an empty history instead gets one appended pair). -/
def setLast : List (String × String) → String → String → List (String × String)
  | [], message, bot => [(message, bot)]
  | [p], _, bot => [(p.1, bot)]
  | p :: q :: rest, message, bot => p :: setLast (q :: rest) message bot

/-- Lexicographic code-point comparison of strings, the order the
Python builtin sorted uses on str values. -/
def pyStrLt : List Char → List Char → Bool
  | [], [] => false
  | [], _ :: _ => true
  | _ :: _, [] => false
  | a :: as2, b :: bs =>
    if a.toNat < b.toNat then true
    else if a.toNat = b.toNat then pyStrLt as2 bs
    else false

/-- Insertion step of pySorted, ascending by code points as Python
compares strings. -/
def insertAsc (s : String) : List String → List String
  | [] => [s]
  | t :: ts => if pyStrLt s.data t.data then s :: t :: ts else t :: insertAsc s ts

/-- Model of the Python builtin sorted on a list of strings. -/
def pySorted : List String → List String
  | [] => []
  | s :: ss => insertAsc s (pySorted ss)

/-- Rendering of an optional string inside a Python f-string: the
value itself, or the text None for the Python constant None. -/
def pyStr : Option String → String
  | some s => s
  | none => "None"

/-- Python truthiness of an optional string: None and the empty string
are falsy. -/
def falsyOpt : Option String → Bool
  | none => true
  | some s => s == ""

/-! ## Language table and session state (app.py lines 28-33, 221-241) -/

/-- Language mapping for translation, kept in the insertion order of
the Python dictionary literal. -/
def LANG_CODES : List (String × String) :=
  [("English", "en"), ("Arabic", "ar"), ("German", "de"), ("Spanish", "es"),
   ("French", "fr"), ("Hindi", "hi"), ("Italian", "it"), ("Japanese", "ja"),
   ("Korean", "ko"), ("Portuguese", "pt"), ("Russian", "ru"), ("Chinese", "zh"),
   ("Bengali", "bn"), ("Tamil", "ta"), ("Telugu", "te"), ("Thai", "th"),
   ("Ukrainian", "uk"), ("Turkish", "tr"), ("Vietnamese", "vi"), ("Kannada", "kn")]

/-- Values view of LANG_CODES, matching the Python expression
LANG_CODES.values(). -/
def LANG_VALUES : List String := LANG_CODES.map (fun p => p.2)

/-- Dictionary membership plus lookup for LANG_CODES keys: some code
when the name is a key, none otherwise. -/
def langLookup (name : String) : Option String :=
  (LANG_CODES.find? (fun p => p.1 == name)).map (fun p => p.2)

/-- Dialogue stages (the five string constants of app.py lines
222-226). -/
inductive Stage
  | ask_language
  | ask_symptoms
  | ask_allergies
  | generate_response
  | general_qna
deriving DecidableEq

/-- One entry of the manually maintained Gemini history (a Python dict
with role and parts keys; the single text part is inlined). -/
structure HistEntry where
  role : String
  text : String
deriving DecidableEq

/-- Session state dictionary of initialize_chat_state.  Every field the
source ever stores is present; fields initialised to None are Option
values.  The translated_summary key is absent from the initial
dictionary and only added in the allergies branch, so it is modelled as
an Option that starts at none (dictionary reads use a default). -/
structure ChatState where
  stage : Stage
  language : Option String
  lang_code : Option String
  symptoms_user_lang : Option String
  symptoms_en : Option String
  allergies_user_lang : Option String
  allergies_en : Option String
  diagnosis_en : Option String
  drug_concept_full_en : Option String
  gemini_chat_history_manual : List HistEntry
  translated_summary : Option String
deriving DecidableEq

/-- Model of initialize_chat_state (app.py lines 229-241). -/
def initialize_chat_state : ChatState :=
  { stage := Stage.ask_language
    language := none
    lang_code := none
    symptoms_user_lang := none
    symptoms_en := none
    allergies_user_lang := none
    allergies_en := none
    diagnosis_en := none
    drug_concept_full_en := none
    gemini_chat_history_manual := []
    translated_summary := none }

/-- The external Gemini service as an oracle.  available models whether
the client object was initialised (gemini_client is not None); complete
models generate_content on a prompt and completeChat models a chat
session seeded with a history; an error value models a raised request
exception carrying the exception text.  Temperatures are passed to the
external service only and are not modelled. -/
structure Gemini where
  available : Bool
  complete : String → Except String String
  completeChat : List HistEntry → String → Except String String

/-! ## Translation adapter (gemini_translate, app.py lines 58-87) -/

/-- Model of gemini_translate.  The source checks, in order: client
missing (input returned), empty or whitespace-only text (empty string
returned), source code known and equal to the target (input returned),
then one completion request whose failure returns the input.  A None
language code is an Option none; a successful response is stripped. -/
def gemini_translate (g : Gemini) (text : String)
    (src_lang_code tgt_lang_code : Option String) : String :=
  if g.available = false then text
  else if pyStrip text.data = [] then ""
  else
    let effective_src_lang_code : String :=
      match src_lang_code with
      | some s => if s ∈ LANG_VALUES then s else "auto"
      | none => "auto"
    let effective_tgt_lang_code : String :=
      match tgt_lang_code with
      | some s => if s ∈ LANG_VALUES then s else "en"
      | none => "en"
    if effective_src_lang_code ≠ "auto" ∧
        effective_src_lang_code = effective_tgt_lang_code then text
    else
      let tgt_lang_name :=
        ((LANG_CODES.find? (fun p => p.2 == effective_tgt_lang_code)).map
          (fun p => p.1)).getD effective_tgt_lang_code
      let prompt :=
        if effective_src_lang_code ≠ "auto" then
          let src_lang_name :=
            ((LANG_CODES.find? (fun p => p.2 == effective_src_lang_code)).map
              (fun p => p.1)).getD effective_src_lang_code
          "Translate the following text from " ++ src_lang_name ++ " to " ++
            tgt_lang_name ++ ":\n\n" ++ text
        else "Translate the following text to " ++ tgt_lang_name ++ ":\n\n" ++ text
      match g.complete prompt with
      | Except.ok r => String.mk (pyStrip r.data)
      | Except.error _ => text

/-! ## Completion wrapper (get_gemini_response, app.py lines 89-116) -/

/-- Model of get_gemini_response.  With no client a fixed error string
is returned; with a history a chat-session request is issued, otherwise
a single completion; a raised request exception is classified by
substrings of its lowered text into one of three descriptive error
strings. -/
def get_gemini_response (g : Gemini) (prompt_text : String)
    (chat_history : List HistEntry) : String :=
  if g.available = false then
    "Error: Gemini API not available. Cannot provide medical information."
  else
    let res :=
      match chat_history with
      | [] => g.complete prompt_text
      | h :: t => g.completeChat (h :: t) prompt_text
    match res with
    | Except.ok r => r
    | Except.error e =>
      let error_detail := String.mk (pyLower e.data)
      if listContains "401".data error_detail.data ∨
          listContains "unauthorized".data error_detail.data then
        "Error: Unauthorized. Check your API key. " ++ e
      else if listContains "429".data error_detail.data ∨
          listContains "quota".data error_detail.data then
        "Error: Rate limit exceeded. Try again later. " ++ e
      else "Error communicating with Gemini API: " ++ e

/-! ## Report field extraction (the four regex searches of app.py
lines 273-285 and 433-445) -/

/-- Header literal of the diagnosis field. -/
def hdrDiagnosis : List Char := "Diagnosis:".data

/-- Header literal of the drug-concept field. -/
def hdrDrug : List Char := "Proposed New Drug:".data

/-- Header literal of the dosage field. -/
def hdrDosage : List Char := "Hypothetical Dosage/Instructions:".data

/-- Header literal of the safety field. -/
def hdrSafety : List Char := "Allergy/Safety Note:".data

/-- Position where the end-of-text anchor first matches without the
MULTILINE flag: the length of the text, or one less when the text ends
with a newline. -/
def dollarPos (l : List Char) : Nat :=
  if l.getLast? = some '\n' then l.length - 1 else l.length

/-- First position at which one of the given later headers matches
(case-insensitively), or the length of the text when none does. -/
def stopScan (nexts : List (List Char)) : List Char → Nat
  | [] => 0
  | c :: cs =>
    if nexts.any (fun h => matchesAt h (c :: cs)) then 0
    else stopScan nexts cs + 1

/-- Where the lazy capture group of a header regex ends: the lazy dot
expands until the alternation of the later headers or the end anchor
matches, whichever position comes first. -/
def captureEnd (nexts : List (List Char)) (rest : List Char) : Nat :=
  min (stopScan nexts rest) (dollarPos rest)

/-- Model of re.search for a pattern of the shape header, lazy dot-all
group, alternation of later headers or end anchor: the group captured
at the leftmost occurrence of the header, or none when the header does
not occur. -/
def searchLazy (hdr : List Char) (nexts : List (List Char))
    (text : List Char) : Option (List Char) :=
  (findCI hdr text).map fun i =>
    let rest := text.drop (i + hdr.length)
    rest.take (captureEnd nexts rest)

/-- Model of re.search for the final pattern header then greedy
dot-all group: everything after the leftmost occurrence of the
header. -/
def searchGreedy (hdr : List Char) (text : List Char) : Option (List Char) :=
  (findCI hdr text).map fun i => text.drop (i + hdr.length)

/-- Strip of the captured group when the search matched, the literal
Not found otherwise, as each of the four extraction lines computes. -/
def fieldOr (o : Option (List Char)) : String :=
  match o with
  | some l => String.mk (pyStrip l)
  | none => "Not found"

/-- The four extracted report fields. -/
structure ExtractedFields where
  diagnosis : String
  drug_concept : String
  dosage : String
  safety : String
deriving DecidableEq

/-- Model of the four-regex extraction block run on the full model
response (app.py lines 273-285, repeated verbatim at 433-445): each
field searches its own header anywhere in the text and captures lazily
up to the first of the later headers or the end anchor; the safety
field captures greedily to the end of the text. -/
def extractFields (full_response : String) : ExtractedFields :=
  let t := full_response.data
  { diagnosis := fieldOr (searchLazy hdrDiagnosis [hdrDrug, hdrDosage, hdrSafety] t)
    drug_concept := fieldOr (searchLazy hdrDrug [hdrDosage, hdrSafety] t)
    dosage := fieldOr (searchLazy hdrDosage [hdrSafety] t)
    safety := fieldOr (searchGreedy hdrSafety t) }

/-! ## Export renderer (generate_pdf_report, app.py lines 148-219) -/

/-- One rendered section of the PDF body: a bold title plus content
when the chunk splits at a colon, otherwise the whole chunk as plain
body text.  Page layout and the lossy latin-1 substitution of
the sanitiser belong to the external rendering layer and are not
modelled. -/
inductive PdfSection
  | titled (title : String) (content : String)
  | bodyOnly (body : String)
deriving DecidableEq

/-- Section loop of generate_pdf_report: chunks that strip to nothing
are skipped; a chunk with a colon becomes a titled section with both
halves stripped; any other chunk is emitted whole (unstripped). -/
def renderSections : List (List Char) → List PdfSection
  | [] => []
  | sec :: rest =>
    if pyStrip sec = [] then renderSections rest
    else
      match splitFirstColon sec with
      | some pr =>
        PdfSection.titled (String.mk (pyStrip pr.1)) (String.mk (pyStrip pr.2)) ::
          renderSections rest
      | none => PdfSection.bodyOnly (String.mk sec) :: renderSections rest

/-- Model of generate_pdf_report: none (the Python None) when the
state holds no translated summary yet (missing key or empty string),
otherwise the list of sections obtained by splitting the summary on
the heading marker. -/
def generate_pdf_report (chat_state : ChatState) : Option (List PdfSection) :=
  let translated_summary := chat_state.translated_summary.getD ""
  if translated_summary = "" then none
  else some (renderSections (splitHashes translated_summary.data))

/-! ## Dialogue sequencer (process_chat, app.py lines 244-557) -/

/-- Diagnosis prompt template of the allergies branch (app.py lines
403-417), with the indentation of the Python triple-quoted literal. -/
def diagnosisPrompt (symptoms allergies : String) : String :=
  "Based on the following symptoms and allergies, provide:\n" ++
  "                1. A potential diagnosis\n" ++
  "                2. A hypothetical new drug concept that could treat this condition\n" ++
  "                3. Hypothetical dosage instructions\n" ++
  "                4. Safety considerations related to the patient's allergies\n\n" ++
  "                Symptoms: " ++ symptoms ++ "\n" ++
  "                Allergies: " ++ allergies ++ "\n\n" ++
  "                Format your response with these exact headings:\n" ++
  "                Diagnosis:\n" ++
  "                Proposed New Drug:\n" ++
  "                Hypothetical Dosage/Instructions:\n" ++
  "                Allergy/Safety Note:\n" ++
  "                "

/-- Follow-up context template of the question-answering branch
(app.py lines 511-519). -/
def qnaContext (symptoms allergies drug question : String) : String :=
  "\n            Previous symptoms: " ++ symptoms ++
  "\n            Previous allergies: " ++ allergies ++
  "\n            Previous diagnosis and drug concept: " ++ drug ++
  "\n            \n            User question: " ++ question ++
  "\n            \n            Respond in a clear, concise way that would be easy to translate to another language.\n            "

/-- The alphabetically sorted language names joined with commas, the
Python expression joining sorted LANG_CODES keys. -/
def available_languages : String :=
  String.intercalate ", " (pySorted (LANG_CODES.map (fun p => p.1)))

/-- What one stage branch produces: the bot reply in the user
language, the updated state, the possibly updated visible history, and
the pair of summaries when the branch overrides the ones prepared
before the dispatch (only the allergies branch does). -/
structure StepOut where
  bot : String
  state : ChatState
  history : List (String × String)
  summaries : Option (String × String)

/-- Language-selection branch (app.py lines 309-342). -/
def step_ask_language (g : Gemini) (message : String)
    (history : List (String × String)) (state : ChatState) : StepOut :=
  let selected_language := String.mk (pyTitle (pyStrip message.data))
  match langLookup selected_language with
  | some code =>
    let welcome_message_en :=
      "Thank you. Your selected language is " ++ selected_language ++ "."
    let next_prompt_en := "Please describe your symptoms."
    let bot_response_en := welcome_message_en ++ "\n\n" ++ next_prompt_en
    let welcome_message := gemini_translate g welcome_message_en (some "en") (some code)
    let next_prompt := gemini_translate g next_prompt_en (some "en") (some code)
    { bot := welcome_message ++ "\n\n" ++ next_prompt
      state := { state with
        language := some selected_language
        lang_code := some code
        stage := Stage.ask_symptoms
        gemini_chat_history_manual := state.gemini_chat_history_manual ++
          [HistEntry.mk "user" ("User selected language: " ++ selected_language),
           HistEntry.mk "model" (bot_response_en)] }
      history := history
      summaries := none }
  | none =>
    { bot := "Sorry, '" ++ message ++ "' is not a supported language. Please select from: " ++
        available_languages
      state := state
      history := history
      summaries := none }

/-- Symptom-collection branch (app.py lines 344-368). -/
def step_ask_symptoms (g : Gemini) (message user_message_en : String)
    (user_lang_code : Option String) (history : List (String × String))
    (state : ChatState) : StepOut :=
  if falsyOpt user_lang_code then
    { bot := "Error: Language not set. Please start over."
      state := initialize_chat_state
      history := history
      summaries := none }
  else if pyStrip message.data = [] then
    { bot := gemini_translate g "Please describe your symptoms so I can assist you."
        (some "en") user_lang_code
      state := state
      history := history
      summaries := none }
  else
    let bot_response_en :=
      "Thank you for sharing your symptoms. Do you have any known allergies? If none, please say 'None'."
    { bot := gemini_translate g bot_response_en (some "en") user_lang_code
      state := { state with
        symptoms_user_lang := some (String.mk (pyStrip message.data))
        symptoms_en := some user_message_en
        stage := Stage.ask_allergies
        gemini_chat_history_manual := state.gemini_chat_history_manual ++
          [HistEntry.mk "user" ("Symptoms: " ++ user_message_en),
           HistEntry.mk "model" (bot_response_en)] }
      history := history
      summaries := none }

/-- Allergy branch, diagnosis generation and summary assembly (app.py
lines 370-488): stores the allergies, moves through generate_response
to general_qna in the same turn, issues the diagnosis completion, runs
the extraction, issues four simplification completions, translates
titles and fields, and stores the translated summary in the state. -/
def step_ask_allergies (g : Gemini) (message user_message_en : String)
    (user_lang_code : Option String) (history : List (String × String))
    (state : ChatState) : StepOut :=
  if falsyOpt user_lang_code then
    { bot := "Error: Language not set. Please start over."
      state := initialize_chat_state
      history := history
      summaries := none }
  else
    let state1 := { state with
      allergies_user_lang := some (String.mk (pyStrip message.data))
      allergies_en := some user_message_en
      stage := Stage.generate_response
      gemini_chat_history_manual := state.gemini_chat_history_manual ++
        [HistEntry.mk "user" ("Allergies: " ++ user_message_en)] }
    let processing_message_en :=
      "Thank you. I'm analyzing your symptoms and allergies to generate a diagnosis and drug concept. This may take a moment..."
    let processing_message :=
      gemini_translate g processing_message_en (some "en") user_lang_code
    let history1 := setLast history message processing_message
    let symptoms := pyStr state1.symptoms_en
    let allergies := pyStr state1.allergies_en
    let diagnosis_response := get_gemini_response g (diagnosisPrompt symptoms allergies) []
    let state2 := { state1 with
      drug_concept_full_en := some diagnosis_response
      stage := Stage.general_qna }
    let bot_response_user_lang :=
      gemini_translate g diagnosis_response (some "en") user_lang_code
    let state3 := { state2 with
      gemini_chat_history_manual := state2.gemini_chat_history_manual ++
        [HistEntry.mk "model" (diagnosis_response)] }
    let f := extractFields diagnosis_response
    let diagnosis_simplified := get_gemini_response g
      ("Simplify this medical diagnosis into 2-3 short bullet points: " ++ f.diagnosis) []
    let drug_concept_simplified := get_gemini_response g
      ("Simplify this drug concept into 2-3 short bullet points about what it is and how it works: " ++ f.drug_concept) []
    let dosage_simplified := get_gemini_response g
      ("Simplify this dosage information into 2-3 short bullet points about dosage amount, frequency, and how to take it: " ++ f.dosage) []
    let safety_simplified := get_gemini_response g
      ("Simplify this safety information into 2-3 short bullet points about allergies and side effects: " ++ f.safety) []
    let english_summary :=
      "**Symptoms:** " ++ symptoms ++ "\n\n" ++
      "**Allergies:** " ++ allergies ++ "\n\n" ++
      "**Diagnosis:** " ++ diagnosis_simplified ++ "\n\n" ++
      "**Medicine:** " ++ drug_concept_simplified ++ "\n\n" ++
      "**Dosage:** " ++ dosage_simplified ++ "\n\n" ++
      "**Safety Notes:** " ++ safety_simplified ++ "\n\n"
    let symptoms_title := gemini_translate g "Symptoms" (some "en") user_lang_code
    let allergies_title := gemini_translate g "Allergies" (some "en") user_lang_code
    let diagnosis_title := gemini_translate g "Diagnosis" (some "en") user_lang_code
    let drug_title := gemini_translate g "Medicine" (some "en") user_lang_code
    let dosage_title := gemini_translate g "Dosage" (some "en") user_lang_code
    let safety_title := gemini_translate g "Safety Notes" (some "en") user_lang_code
    let translated_diagnosis :=
      gemini_translate g diagnosis_simplified (some "en") user_lang_code
    let translated_drug :=
      gemini_translate g drug_concept_simplified (some "en") user_lang_code
    let translated_dosage :=
      gemini_translate g dosage_simplified (some "en") user_lang_code
    let translated_safety :=
      gemini_translate g safety_simplified (some "en") user_lang_code
    let translated_summary :=
      "### " ++ symptoms_title ++ ":\n" ++ pyStr state1.symptoms_user_lang ++ "\n\n" ++
      "### " ++ allergies_title ++ ":\n" ++ pyStr state1.allergies_user_lang ++ "\n\n" ++
      "### " ++ diagnosis_title ++ ":\n" ++ translated_diagnosis ++ "\n\n" ++
      "### " ++ drug_title ++ ":\n" ++ translated_drug ++ "\n\n" ++
      "### " ++ dosage_title ++ ":\n" ++ translated_dosage ++ "\n\n" ++
      "### " ++ safety_title ++ ":\n" ++ translated_safety ++ "\n\n"
    { bot := bot_response_user_lang
      state := { state3 with translated_summary := some translated_summary }
      history := history1
      summaries := some (english_summary, translated_summary) }

/-- Follow-up question branch (app.py lines 490-530). -/
def step_general_qna (g : Gemini) (message user_message_en : String)
    (user_lang_code : Option String) (history : List (String × String))
    (state : ChatState) : StepOut :=
  let state1 := { state with
    gemini_chat_history_manual := state.gemini_chat_history_manual ++
      [HistEntry.mk "user" (user_message_en)] }
  let processing_message :=
    gemini_translate g "I'm thinking about your question..." (some "en") user_lang_code
  let history1 := setLast history message processing_message
  let context := qnaContext (pyStr state.symptoms_en) (pyStr state.allergies_en)
    (pyStr state.drug_concept_full_en) user_message_en
  let qna_response := get_gemini_response g context []
  let bot_response_user_lang :=
    gemini_translate g qna_response (some "en") user_lang_code
  { bot := bot_response_user_lang
    state := { state1 with
      gemini_chat_history_manual := state1.gemini_chat_history_manual ++
        [HistEntry.mk "model" (qna_response)] }
    history := history1
    summaries := none }

/-- The summary pair prepared before the stage dispatch (app.py lines
264-306): fixed placeholder texts, overridden by a re-extraction and
re-translation of the stored full response when one is present. -/
def preamble_summaries (g : Gemini) (state : ChatState) : String × String :=
  match state.drug_concept_full_en with
  | some full =>
    if full ≠ "" then
      let user_lang_code := state.lang_code
      let f := extractFields full
      let english_summary :=
        "**Symptoms:** " ++ pyStr state.symptoms_en ++ "\n\n" ++
        "**Allergies:** " ++ pyStr state.allergies_en ++ "\n\n" ++
        "**Diagnosis:** " ++ f.diagnosis ++ "\n\n" ++
        "**Drug Concept:** " ++ f.drug_concept ++ "\n\n" ++
        "**Dosage:** " ++ f.dosage ++ "\n\n" ++
        "**Safety:** " ++ f.safety ++ "\n\n"
      let translated_summary :=
        "**" ++ gemini_translate g "Symptoms" (some "en") user_lang_code ++ ":** " ++
          pyStr state.symptoms_user_lang ++ "\n\n" ++
        "**" ++ gemini_translate g "Allergies" (some "en") user_lang_code ++ ":** " ++
          pyStr state.allergies_user_lang ++ "\n\n" ++
        "**" ++ gemini_translate g "Diagnosis" (some "en") user_lang_code ++ ":** " ++
          gemini_translate g f.diagnosis (some "en") user_lang_code ++ "\n\n" ++
        "**" ++ gemini_translate g "Drug Concept" (some "en") user_lang_code ++ ":** " ++
          gemini_translate g f.drug_concept (some "en") user_lang_code ++ "\n\n" ++
        "**" ++ gemini_translate g "Dosage" (some "en") user_lang_code ++ ":** " ++
          gemini_translate g f.dosage (some "en") user_lang_code ++ "\n\n" ++
        "**" ++ gemini_translate g "Safety" (some "en") user_lang_code ++ ":** " ++
          gemini_translate g f.safety (some "en") user_lang_code ++ "\n\n"
      (english_summary, translated_summary)
    else
      ("Report summary will appear here after diagnosis.",
       "Translated report summary will appear here.")
  | none =>
    ("Report summary will appear here after diagnosis.",
     "Translated report summary will appear here.")

/-- The four values a turn returns to the interface. -/
structure TurnResult where
  history : List (String × String)
  english_summary : String
  translated_summary_out : String
  state : ChatState
deriving DecidableEq

/-- Stage dispatch of process_chat: the chain of branch comparisons on
the stage string.  The generate_response stage matches no branch in
the source, so it leaves everything untouched and the bot reply
empty. -/
def step_stage (g : Gemini) (message user_message_en : String)
    (user_lang_code : Option String) (history : List (String × String))
    (state : ChatState) : StepOut :=
  match state.stage with
  | Stage.ask_language => step_ask_language g message history state
  | Stage.ask_symptoms =>
    step_ask_symptoms g message user_message_en user_lang_code history state
  | Stage.ask_allergies =>
    step_ask_allergies g message user_message_en user_lang_code history state
  | Stage.generate_response =>
    { bot := "", state := state, history := history, summaries := none }
  | Stage.general_qna =>
    step_general_qna g message user_message_en user_lang_code history state

/-- Model of process_chat (app.py lines 244-557).  The user row is
appended to the visible history before the try block.  exc injects an
unexpected runtime exception of the Python interpreter (the body's own
service calls never raise, they degrade to strings): with some e the
top-level except branch runs, replacing the bot message and resetting
the session; with none the body runs: the incoming message is
translated to English when a non-English language is set, the summary
pair is prepared, the stage branch runs, and the bot reply is written
into the last history row. -/
def process_chat (g : Gemini) (exc : Option String) (message : String)
    (history0 : List (String × String)) (state : ChatState) : TurnResult :=
  let history := history0 ++ [(message, "")]
  match exc with
  | some e =>
    let error_message :=
      "An error occurred: " ++ e ++ ". Please try again or restart the conversation."
    { history := setLast history message error_message
      english_summary := "Error: " ++ error_message
      translated_summary_out := "Error: " ++ error_message
      state := initialize_chat_state }
  | none =>
    let user_lang_code := state.lang_code
    let user_message_en :=
      if user_lang_code ≠ some "en" ∧ user_lang_code ≠ none ∧ pyStrip message.data ≠ []
      then gemini_translate g message user_lang_code (some "en")
      else message
    let defaults := preamble_summaries g state
    let out := step_stage g message user_message_en user_lang_code history state
    let sums := out.summaries.getD defaults
    { history := setLast out.history message out.bot
      english_summary := sums.1
      translated_summary_out := sums.2
      state := out.state }

/-- Numeric position of a stage in the scripted order, for the
forward-only invariant. -/
def stageIdx : Stage → Nat
  | Stage.ask_language => 0
  | Stage.ask_symptoms => 1
  | Stage.ask_allergies => 2
  | Stage.generate_response => 3
  | Stage.general_qna => 4

/-! ## Concrete oracles and states used to evaluate the model -/

/-- An available service whose every request succeeds with a fixed
reply. -/
def oracleOk : Gemini :=
  { available := true
    complete := fun _ => Except.ok "OK."
    completeChat := fun _ _ => Except.ok "OK." }

/-- An available service whose every request raises. -/
def oracleFail : Gemini :=
  { available := true
    complete := fun _ => Except.error "boom"
    completeChat := fun _ _ => Except.error "boom" }

/-- A service whose client was never initialised. -/
def oracleDown : Gemini :=
  { available := false
    complete := fun _ => Except.error "down"
    completeChat := fun _ _ => Except.error "down" }

/-- A session that has collected a language, symptoms and allergies
and sits in the follow-up stage. -/
def qnaState : ChatState :=
  { stage := Stage.general_qna
    language := some "English"
    lang_code := some "en"
    symptoms_user_lang := some "fever"
    symptoms_en := some "fever"
    allergies_user_lang := some "none"
    allergies_en := some "none"
    diagnosis_en := none
    drug_concept_full_en := some "Diagnosis: flu"
    gemini_chat_history_manual := []
    translated_summary := some "### Diagnosis:\nflu\n\n" }

/-- A session about to answer the allergy question. -/
def allergyState : ChatState :=
  { stage := Stage.ask_allergies
    language := some "English"
    lang_code := some "en"
    symptoms_user_lang := some "fever"
    symptoms_en := some "fever"
    allergies_user_lang := none
    allergies_en := none
    diagnosis_en := none
    drug_concept_full_en := none
    gemini_chat_history_manual := []
    translated_summary := none }

/-! ## Well-formed model responses: the four headers in order around
arbitrary field bodies, and the variants with one header left out -/

/-- A response carrying all four headers in the documented order. -/
def fourHeaderText (p d g o s : List Char) : List Char :=
  p ++ hdrDiagnosis ++ d ++ hdrDrug ++ g ++ hdrDosage ++ o ++ hdrSafety ++ s

/-- A response missing the diagnosis header. -/
def textNoDiagnosis (p g o s : List Char) : List Char :=
  p ++ hdrDrug ++ g ++ hdrDosage ++ o ++ hdrSafety ++ s

/-- A response missing the drug header. -/
def textNoDrug (p d o s : List Char) : List Char :=
  p ++ hdrDiagnosis ++ d ++ hdrDosage ++ o ++ hdrSafety ++ s

/-- A response missing the dosage header. -/
def textNoDosage (p d g s : List Char) : List Char :=
  p ++ hdrDiagnosis ++ d ++ hdrDrug ++ g ++ hdrSafety ++ s

/-- A response missing the safety header. -/
def textNoSafety (p d g o : List Char) : List Char :=
  p ++ hdrDiagnosis ++ d ++ hdrDrug ++ g ++ hdrDosage ++ o

/-- A two-chunk translated summary for the export witness. -/
def pdfSummary : String :=
  String.mk ("###".data ++ " Diagnosis".data ++ ':' :: "\nflu\n".data ++
    "###".data ++ " Dosage".data ++ ':' :: "\n1x\n".data)

/-- A session whose stored translated summary has two heading-marked
chunks. -/
def pdfState : ChatState :=
  { qnaState with translated_summary := some pdfSummary }

/-! ## Occurrence predicates and matching lemmas -/

/-- The pattern matches at position k and nowhere else (bounded, hence
decidable on concrete inputs). -/
abbrev onlyAt (pat w : List Char) (k : Nat) : Prop :=
  ∀ i, i < w.length → matchesAt pat (w.drop i) = true → i = k

/-- The pattern matches nowhere in the text. -/
abbrev noOccur (pat w : List Char) : Prop :=
  ∀ i, i < w.length → matchesAt pat (w.drop i) = false

theorem matchesAt_append_self (pat rest : List Char) :
    matchesAt pat (pat ++ rest) = true := by
  induction pat with
  | nil => rfl
  | cons p ps ih => simp [matchesAt, ih]

theorem matchesAt_false_of_le (pat : List Char) (hne : pat ≠ []) (t : List Char)
    (i : Nat) (h : t.length ≤ i) : matchesAt pat (t.drop i) = false := by
  rw [List.drop_eq_nil_of_le h]
  cases pat with
  | nil => exact absurd rfl hne
  | cons p ps => rfl

theorem findCI_eq_some (pat : List Char) (t : List Char) (k : Nat)
    (hk : matchesAt pat (t.drop k) = true)
    (hmin : ∀ j, j < k → matchesAt pat (t.drop j) = false) :
    findCI pat t = some k := by
  induction t generalizing k with
  | nil =>
    cases k with
    | zero => simp only [List.drop_nil] at hk; simp [findCI, hk]
    | succ k' =>
      have h0 := hmin 0 (Nat.succ_pos _)
      simp only [List.drop_nil] at h0 hk
      rw [h0] at hk
      exact absurd hk (by simp)
  | cons c cs ih =>
    cases k with
    | zero => simp only [List.drop_zero] at hk; simp [findCI, hk]
    | succ k' =>
      have h0 := hmin 0 (Nat.succ_pos _)
      simp only [List.drop_zero] at h0
      rw [findCI, if_neg (by simp [h0])]
      have hrec : findCI pat cs = some k' := by
        apply ih
        · simpa [List.drop_succ_cons] using hk
        · intro j hj
          have := hmin (j + 1) (by omega)
          simpa [List.drop_succ_cons] using this
      rw [hrec]
      rfl

theorem findCI_eq_none (pat : List Char) (t : List Char)
    (h : ∀ j, matchesAt pat (t.drop j) = false) : findCI pat t = none := by
  induction t with
  | nil =>
    have h0 := h 0
    simp only [List.drop_nil] at h0
    simp [findCI, h0]
  | cons c cs ih =>
    have h0 := h 0
    simp only [List.drop_zero] at h0
    rw [findCI, if_neg (by simp [h0])]
    have : findCI pat cs = none := by
      apply ih
      intro j
      have := h (j + 1)
      simpa [List.drop_succ_cons] using this
    rw [this]
    rfl

theorem stopScan_eq (nexts : List (List Char)) (b : List Char) (k : Nat)
    (hk : (nexts.any (fun h => matchesAt h (b.drop k))) = true)
    (hmin : ∀ j, j < k → (nexts.any (fun h => matchesAt h (b.drop j))) = false) :
    stopScan nexts b = k := by
  induction b generalizing k with
  | nil =>
    cases k with
    | zero => rfl
    | succ k' =>
      have h0 := hmin 0 (Nat.succ_pos _)
      simp only [List.drop_nil] at h0 hk
      rw [h0] at hk
      exact absurd hk (by simp)
  | cons c cs ih =>
    cases k with
    | zero =>
      simp only [List.drop_zero] at hk
      rw [stopScan, if_pos hk]
    | succ k' =>
      have h0 := hmin 0 (Nat.succ_pos _)
      simp only [List.drop_zero] at h0
      rw [stopScan, if_neg (by simp [h0])]
      have hrec : stopScan nexts cs = k' := by
        apply ih
        · simpa [List.drop_succ_cons] using hk
        · intro j hj
          have := hmin (j + 1) (by omega)
          simpa [List.drop_succ_cons] using this
      omega

theorem stopScan_eq_length (nexts : List (List Char)) (b : List Char)
    (h : ∀ j, (nexts.any (fun h2 => matchesAt h2 (b.drop j))) = false) :
    stopScan nexts b = b.length := by
  induction b with
  | nil => rfl
  | cons c cs ih =>
    have h0 := h 0
    simp only [List.drop_zero] at h0
    rw [stopScan, if_neg (by simp [h0])]
    have : stopScan nexts cs = cs.length := by
      apply ih
      intro j
      have := h (j + 1)
      simpa [List.drop_succ_cons] using this
    simp [this]

theorem dollarPos_le (l : List Char) : dollarPos l ≤ l.length := by
  unfold dollarPos
  split <;> omega

theorem le_dollarPos (l : List Char) : l.length - 1 ≤ dollarPos l := by
  unfold dollarPos
  split <;> omega

theorem pyStrip_append_ws (x : List Char) (c : Char) (hc : c.isWhitespace = true) :
    pyStrip (x ++ [c]) = pyStrip x := by
  unfold pyStrip
  rw [List.dropWhile_append]
  split
  next hemp =>
    have hx : x.dropWhile Char.isWhitespace = [] := by
      simpa [List.isEmpty_iff] using hemp
    simp [List.dropWhile, hc, hx]
  next hemp =>
    rw [List.reverse_append]
    simp [List.dropWhile, hc]

theorem pyStrip_take_dollarPos (l : List Char) :
    pyStrip (l.take (dollarPos l)) = pyStrip l := by
  unfold dollarPos
  split
  next hlast =>
    have hne : l ≠ [] := by
      intro h
      subst h
      simp at hlast
    have hgl : l.getLast hne = '\n' := by
      have := List.getLast?_eq_getLast l hne
      rw [this] at hlast
      exact (Option.some.injEq _ _).mp hlast.symm |>.symm
    rw [← List.dropLast_eq_take]
    conv_rhs => rw [← List.dropLast_append_getLast hne]
    rw [hgl]
    exact (pyStrip_append_ws _ _ (by decide)).symm
  next =>
    rw [List.take_length]

theorem searchLazy_seam (hdr : List Char) (nexts : List (List Char)) (a b : List Char)
    (huniq : onlyAt hdr (a ++ (hdr ++ b)) a.length) :
    searchLazy hdr nexts (a ++ (hdr ++ b)) = some (b.take (captureEnd nexts b)) := by
  have hfind : findCI hdr (a ++ (hdr ++ b)) = some a.length := by
    apply findCI_eq_some
    · rw [List.drop_left]
      exact matchesAt_append_self hdr b
    · intro j hj
      by_contra hcon
      have htrue : matchesAt hdr ((a ++ (hdr ++ b)).drop j) = true := by
        cases h : matchesAt hdr ((a ++ (hdr ++ b)).drop j)
        · exact absurd h hcon
        · rfl
      have hlen : j < (a ++ (hdr ++ b)).length := by
        have : a.length ≤ (a ++ (hdr ++ b)).length := by simp
        omega
      have := huniq j hlen htrue
      omega
  unfold searchLazy
  rw [hfind, Option.map_some']
  have hrw : (a ++ (hdr ++ b)) = (a ++ hdr) ++ b := by
    simp [List.append_assoc]
  rw [hrw, show a.length + hdr.length = (a ++ hdr).length by simp, List.drop_left]

theorem searchGreedy_seam (hdr : List Char) (a b : List Char)
    (huniq : onlyAt hdr (a ++ (hdr ++ b)) a.length) :
    searchGreedy hdr (a ++ (hdr ++ b)) = some b := by
  have hfind : findCI hdr (a ++ (hdr ++ b)) = some a.length := by
    apply findCI_eq_some
    · rw [List.drop_left]
      exact matchesAt_append_self hdr b
    · intro j hj
      by_contra hcon
      have htrue : matchesAt hdr ((a ++ (hdr ++ b)).drop j) = true := by
        cases h : matchesAt hdr ((a ++ (hdr ++ b)).drop j)
        · exact absurd h hcon
        · rfl
      have hlen : j < (a ++ (hdr ++ b)).length := by
        have : a.length ≤ (a ++ (hdr ++ b)).length := by simp
        omega
      have := huniq j hlen htrue
      omega
  unfold searchGreedy
  rw [hfind, Option.map_some']
  have hrw : (a ++ (hdr ++ b)) = (a ++ hdr) ++ b := by
    simp [List.append_assoc]
  rw [hrw, show a.length + hdr.length = (a ++ hdr).length by simp, List.drop_left]

theorem searchLazy_absent (hdr : List Char) (nexts : List (List Char)) (t : List Char)
    (hne : hdr ≠ []) (habs : noOccur hdr t) :
    searchLazy hdr nexts t = none := by
  unfold searchLazy
  rw [findCI_eq_none hdr t ?hall]
  · rfl
  case hall =>
    intro j
    by_cases hj : j < t.length
    · exact habs j hj
    · exact matchesAt_false_of_le hdr hne t j (by omega)

theorem searchGreedy_absent (hdr : List Char) (t : List Char)
    (hne : hdr ≠ []) (habs : noOccur hdr t) :
    searchGreedy hdr t = none := by
  unfold searchGreedy
  rw [findCI_eq_none hdr t ?hall]
  · rfl
  case hall =>
    intro j
    by_cases hj : j < t.length
    · exact habs j hj
    · exact matchesAt_false_of_le hdr hne t j (by omega)

theorem captureEnd_seam (nexts : List (List Char)) (d nh c : List Char)
    (hmem : nh ∈ nexts) (hlen2 : 2 ≤ nh.length)
    (hno : ∀ j, j < d.length → ∀ h ∈ nexts, matchesAt h ((d ++ (nh ++ c)).drop j) = false) :
    captureEnd nexts (d ++ (nh ++ c)) = d.length := by
  have hstop : stopScan nexts (d ++ (nh ++ c)) = d.length := by
    apply stopScan_eq
    · rw [List.drop_left]
      rw [List.any_eq_true]
      exact ⟨nh, hmem, matchesAt_append_self nh c⟩
    · intro j hj
      rw [List.any_eq_false]
      intro h hm
      rw [hno j hj h hm]
      simp
  unfold captureEnd
  rw [hstop]
  have h1 := le_dollarPos (d ++ (nh ++ c))
  have h2 : (d ++ (nh ++ c)).length = d.length + (nh.length + c.length) := by simp
  omega

theorem captureEnd_no_next (nexts : List (List Char)) (b : List Char)
    (hnexts : ∀ h ∈ nexts, h ≠ [])
    (hno : ∀ j, j < b.length → ∀ h ∈ nexts, matchesAt h (b.drop j) = false) :
    captureEnd nexts b = dollarPos b := by
  have hstop : stopScan nexts b = b.length := by
    apply stopScan_eq_length
    intro j
    rw [List.any_eq_false]
    intro h hm
    by_cases hj : j < b.length
    · rw [hno j hj h hm]
      simp
    · rw [matchesAt_false_of_le h (hnexts h hm) b j (by omega)]
      simp
  unfold captureEnd
  rw [hstop]
  have := dollarPos_le b
  omega

theorem matchesAt_shift (h a b : List Char) (j : Nat) :
    matchesAt h ((a ++ b).drop (a.length + j)) = matchesAt h (b.drop j) := by
  rw [List.drop_append]

theorem fieldOr_some (l : List Char) : fieldOr (some l) = String.mk (pyStrip l) := rfl

theorem field_at_seam (hdr : List Char) (nexts : List (List Char)) (a d nh c : List Char)
    (hmem : nh ∈ nexts) (hlen2 : 2 ≤ nh.length)
    (huniq : onlyAt hdr (a ++ (hdr ++ (d ++ (nh ++ c)))) a.length)
    (hno : ∀ j, j < d.length → ∀ h ∈ nexts, matchesAt h ((d ++ (nh ++ c)).drop j) = false) :
    fieldOr (searchLazy hdr nexts (a ++ (hdr ++ (d ++ (nh ++ c))))) = String.mk (pyStrip d) := by
  rw [searchLazy_seam hdr nexts a _ huniq, captureEnd_seam nexts d nh c hmem hlen2 hno,
    List.take_left]
  rfl

theorem field_at_tail (hdr : List Char) (nexts : List (List Char)) (a d : List Char)
    (hnexts : ∀ h ∈ nexts, h ≠ [])
    (huniq : onlyAt hdr (a ++ (hdr ++ d)) a.length)
    (hno : ∀ j, j < d.length → ∀ h ∈ nexts, matchesAt h (d.drop j) = false) :
    fieldOr (searchLazy hdr nexts (a ++ (hdr ++ d))) = String.mk (pyStrip d) := by
  rw [searchLazy_seam hdr nexts a d huniq, captureEnd_no_next nexts d hnexts hno,
    fieldOr_some, pyStrip_take_dollarPos]

theorem field_greedy_at_seam (hdr : List Char) (a d : List Char)
    (huniq : onlyAt hdr (a ++ (hdr ++ d)) a.length) :
    fieldOr (searchGreedy hdr (a ++ (hdr ++ d))) = String.mk (pyStrip d) := by
  rw [searchGreedy_seam hdr a d huniq]
  rfl

theorem field_lazy_absent (hdr : List Char) (nexts : List (List Char)) (t : List Char)
    (hne : hdr ≠ []) (habs : noOccur hdr t) :
    fieldOr (searchLazy hdr nexts t) = "Not found" := by
  rw [searchLazy_absent hdr nexts t hne habs]
  rfl

theorem field_greedy_absent (hdr : List Char) (t : List Char)
    (hne : hdr ≠ []) (habs : noOccur hdr t) :
    fieldOr (searchGreedy hdr t) = "Not found" := by
  rw [searchGreedy_absent hdr t hne habs]
  rfl

theorem onlyAt_reject (pat W : List Char) (k pos : Nat) (hk : onlyAt pat W k)
    (hlt : pos < W.length) (hne : pos ≠ k) : matchesAt pat (W.drop pos) = false := by
  cases hmb : matchesAt pat (W.drop pos) with
  | false => rfl
  | true => exact absurd (hk pos hlt hmb) hne

theorem extract_all_present (p d g o s : List Char)
    (h1 : onlyAt hdrDiagnosis (fourHeaderText p d g o s) p.length)
    (h2 : onlyAt hdrDrug (fourHeaderText p d g o s)
      (p.length + hdrDiagnosis.length + d.length))
    (h3 : onlyAt hdrDosage (fourHeaderText p d g o s)
      (p.length + hdrDiagnosis.length + d.length + hdrDrug.length + g.length))
    (h4 : onlyAt hdrSafety (fourHeaderText p d g o s)
      (p.length + hdrDiagnosis.length + d.length + hdrDrug.length + g.length +
        hdrDosage.length + o.length)) :
    extractFields (String.mk (fourHeaderText p d g o s)) =
      ExtractedFields.mk (String.mk (pyStrip d)) (String.mk (pyStrip g))
        (String.mk (pyStrip o)) (String.mk (pyStrip s)) := by
  have e1 : hdrDiagnosis.length = 10 := rfl
  have e2 : hdrDrug.length = 18 := rfl
  have e3 : hdrDosage.length = 33 := rfl
  have e4 : hdrSafety.length = 20 := rfl
  have hWlen : (fourHeaderText p d g o s).length =
      p.length + 10 + d.length + 18 + g.length + 33 + o.length + 20 + s.length := by
    simp [fourHeaderText]
    omega
  have hdiag : fieldOr (searchLazy hdrDiagnosis [hdrDrug, hdrDosage, hdrSafety]
      (fourHeaderText p d g o s)) = String.mk (pyStrip d) := by
    rw [show fourHeaderText p d g o s =
      p ++ (hdrDiagnosis ++ (d ++ (hdrDrug ++ (g ++ (hdrDosage ++ (o ++ (hdrSafety ++ s)))))))
      from by simp [fourHeaderText]]
    apply field_at_seam
    · simp
    · decide
    · rw [show p ++ (hdrDiagnosis ++ (d ++ (hdrDrug ++ (g ++ (hdrDosage ++ (o ++ (hdrSafety ++ s)))))))
        = fourHeaderText p d g o s from by simp [fourHeaderText]]
      exact h1
    · intro j hj h hm
      rw [← matchesAt_shift h (p ++ hdrDiagnosis) _ j]
      rw [show (p ++ hdrDiagnosis) ++ (d ++ (hdrDrug ++ (g ++ (hdrDosage ++ (o ++ (hdrSafety ++ s))))))
        = fourHeaderText p d g o s from by simp [fourHeaderText]]
      have hpos : (p ++ hdrDiagnosis).length + j = p.length + 10 + j := by
        simp [e1]
      rw [hpos]
      fin_cases hm
      · exact onlyAt_reject _ _ _ _ h2 (by omega) (by omega)
      · exact onlyAt_reject _ _ _ _ h3 (by omega) (by omega)
      · exact onlyAt_reject _ _ _ _ h4 (by omega) (by omega)
  have hdrug : fieldOr (searchLazy hdrDrug [hdrDosage, hdrSafety]
      (fourHeaderText p d g o s)) = String.mk (pyStrip g) := by
    rw [show fourHeaderText p d g o s =
      (p ++ (hdrDiagnosis ++ d)) ++ (hdrDrug ++ (g ++ (hdrDosage ++ (o ++ (hdrSafety ++ s)))))
      from by simp [fourHeaderText]]
    apply field_at_seam
    · simp
    · decide
    · rw [show (p ++ (hdrDiagnosis ++ d)) ++ (hdrDrug ++ (g ++ (hdrDosage ++ (o ++ (hdrSafety ++ s)))))
        = fourHeaderText p d g o s from by simp [fourHeaderText]]
      rw [show (p ++ (hdrDiagnosis ++ d)).length = p.length + hdrDiagnosis.length + d.length
        from by simp [List.length_append]; omega]
      exact h2
    · intro j hj h hm
      rw [← matchesAt_shift h (p ++ (hdrDiagnosis ++ (d ++ hdrDrug))) _ j]
      rw [show (p ++ (hdrDiagnosis ++ (d ++ hdrDrug))) ++ (g ++ (hdrDosage ++ (o ++ (hdrSafety ++ s))))
        = fourHeaderText p d g o s from by simp [fourHeaderText]]
      have hpos : (p ++ (hdrDiagnosis ++ (d ++ hdrDrug))).length + j =
          p.length + 10 + d.length + 18 + j := by
        simp [List.length_append, e1, e2]
        omega
      rw [hpos]
      fin_cases hm
      · exact onlyAt_reject _ _ _ _ h3 (by omega) (by omega)
      · exact onlyAt_reject _ _ _ _ h4 (by omega) (by omega)
  have hdos : fieldOr (searchLazy hdrDosage [hdrSafety]
      (fourHeaderText p d g o s)) = String.mk (pyStrip o) := by
    rw [show fourHeaderText p d g o s =
      (p ++ (hdrDiagnosis ++ (d ++ (hdrDrug ++ g)))) ++ (hdrDosage ++ (o ++ (hdrSafety ++ s)))
      from by simp [fourHeaderText]]
    apply field_at_seam
    · simp
    · decide
    · rw [show (p ++ (hdrDiagnosis ++ (d ++ (hdrDrug ++ g)))) ++ (hdrDosage ++ (o ++ (hdrSafety ++ s)))
        = fourHeaderText p d g o s from by simp [fourHeaderText]]
      rw [show (p ++ (hdrDiagnosis ++ (d ++ (hdrDrug ++ g)))).length =
          p.length + hdrDiagnosis.length + d.length + hdrDrug.length + g.length
        from by simp [List.length_append]; omega]
      exact h3
    · intro j hj h hm
      rw [← matchesAt_shift h (p ++ (hdrDiagnosis ++ (d ++ (hdrDrug ++ (g ++ hdrDosage))))) _ j]
      rw [show (p ++ (hdrDiagnosis ++ (d ++ (hdrDrug ++ (g ++ hdrDosage))))) ++ (o ++ (hdrSafety ++ s))
        = fourHeaderText p d g o s from by simp [fourHeaderText]]
      have hpos : (p ++ (hdrDiagnosis ++ (d ++ (hdrDrug ++ (g ++ hdrDosage))))).length + j =
          p.length + 10 + d.length + 18 + g.length + 33 + j := by
        simp [List.length_append, e1, e2, e3]
        omega
      rw [hpos]
      fin_cases hm
      · exact onlyAt_reject _ _ _ _ h4 (by omega) (by omega)
  have hsaf : fieldOr (searchGreedy hdrSafety (fourHeaderText p d g o s)) =
      String.mk (pyStrip s) := by
    rw [show fourHeaderText p d g o s =
      (p ++ (hdrDiagnosis ++ (d ++ (hdrDrug ++ (g ++ (hdrDosage ++ o)))))) ++ (hdrSafety ++ s)
      from by simp [fourHeaderText]]
    apply field_greedy_at_seam
    rw [show (p ++ (hdrDiagnosis ++ (d ++ (hdrDrug ++ (g ++ (hdrDosage ++ o)))))) ++ (hdrSafety ++ s)
      = fourHeaderText p d g o s from by simp [fourHeaderText]]
    rw [show (p ++ (hdrDiagnosis ++ (d ++ (hdrDrug ++ (g ++ (hdrDosage ++ o)))))).length =
        p.length + hdrDiagnosis.length + d.length + hdrDrug.length + g.length +
          hdrDosage.length + o.length
      from by simp [List.length_append]; omega]
    exact h4
  rw [show extractFields (String.mk (fourHeaderText p d g o s)) =
    ExtractedFields.mk
      (fieldOr (searchLazy hdrDiagnosis [hdrDrug, hdrDosage, hdrSafety] (fourHeaderText p d g o s)))
      (fieldOr (searchLazy hdrDrug [hdrDosage, hdrSafety] (fourHeaderText p d g o s)))
      (fieldOr (searchLazy hdrDosage [hdrSafety] (fourHeaderText p d g o s)))
      (fieldOr (searchGreedy hdrSafety (fourHeaderText p d g o s))) from rfl]
  rw [hdiag, hdrug, hdos, hsaf]

theorem extract_no_diagnosis (p g o s : List Char)
    (h1 : noOccur hdrDiagnosis (textNoDiagnosis p g o s))
    (h2 : onlyAt hdrDrug (textNoDiagnosis p g o s) p.length)
    (h3 : onlyAt hdrDosage (textNoDiagnosis p g o s)
      (p.length + hdrDrug.length + g.length))
    (h4 : onlyAt hdrSafety (textNoDiagnosis p g o s)
      (p.length + hdrDrug.length + g.length + hdrDosage.length + o.length)) :
    extractFields (String.mk (textNoDiagnosis p g o s)) =
      ExtractedFields.mk "Not found" (String.mk (pyStrip g))
        (String.mk (pyStrip o)) (String.mk (pyStrip s)) := by
  have e2 : hdrDrug.length = 18 := rfl
  have e3 : hdrDosage.length = 33 := rfl
  have e4 : hdrSafety.length = 20 := rfl
  have hWlen : (textNoDiagnosis p g o s).length =
      p.length + 18 + g.length + 33 + o.length + 20 + s.length := by
    simp [textNoDiagnosis]
    omega
  have hdiag : fieldOr (searchLazy hdrDiagnosis [hdrDrug, hdrDosage, hdrSafety]
      (textNoDiagnosis p g o s)) = "Not found" :=
    field_lazy_absent _ _ _ (by decide) h1
  have hdrug : fieldOr (searchLazy hdrDrug [hdrDosage, hdrSafety]
      (textNoDiagnosis p g o s)) = String.mk (pyStrip g) := by
    rw [show textNoDiagnosis p g o s =
      p ++ (hdrDrug ++ (g ++ (hdrDosage ++ (o ++ (hdrSafety ++ s)))))
      from by simp [textNoDiagnosis]]
    apply field_at_seam
    · simp
    · decide
    · rw [show p ++ (hdrDrug ++ (g ++ (hdrDosage ++ (o ++ (hdrSafety ++ s)))))
        = textNoDiagnosis p g o s from by simp [textNoDiagnosis]]
      exact h2
    · intro j hj h hm
      rw [← matchesAt_shift h (p ++ hdrDrug) _ j]
      rw [show (p ++ hdrDrug) ++ (g ++ (hdrDosage ++ (o ++ (hdrSafety ++ s))))
        = textNoDiagnosis p g o s from by simp [textNoDiagnosis]]
      have hpos : (p ++ hdrDrug).length + j = p.length + 18 + j := by
        simp [e2]
      rw [hpos]
      fin_cases hm
      · exact onlyAt_reject _ _ _ _ h3 (by omega) (by omega)
      · exact onlyAt_reject _ _ _ _ h4 (by omega) (by omega)
  have hdos : fieldOr (searchLazy hdrDosage [hdrSafety]
      (textNoDiagnosis p g o s)) = String.mk (pyStrip o) := by
    rw [show textNoDiagnosis p g o s =
      (p ++ (hdrDrug ++ g)) ++ (hdrDosage ++ (o ++ (hdrSafety ++ s)))
      from by simp [textNoDiagnosis]]
    apply field_at_seam
    · simp
    · decide
    · rw [show (p ++ (hdrDrug ++ g)) ++ (hdrDosage ++ (o ++ (hdrSafety ++ s)))
        = textNoDiagnosis p g o s from by simp [textNoDiagnosis]]
      rw [show (p ++ (hdrDrug ++ g)).length = p.length + hdrDrug.length + g.length
        from by simp [List.length_append]; omega]
      exact h3
    · intro j hj h hm
      rw [← matchesAt_shift h (p ++ (hdrDrug ++ (g ++ hdrDosage))) _ j]
      rw [show (p ++ (hdrDrug ++ (g ++ hdrDosage))) ++ (o ++ (hdrSafety ++ s))
        = textNoDiagnosis p g o s from by simp [textNoDiagnosis]]
      have hpos : (p ++ (hdrDrug ++ (g ++ hdrDosage))).length + j =
          p.length + 18 + g.length + 33 + j := by
        simp [List.length_append, e2, e3]
        omega
      rw [hpos]
      fin_cases hm
      · exact onlyAt_reject _ _ _ _ h4 (by omega) (by omega)
  have hsaf : fieldOr (searchGreedy hdrSafety (textNoDiagnosis p g o s)) =
      String.mk (pyStrip s) := by
    rw [show textNoDiagnosis p g o s =
      (p ++ (hdrDrug ++ (g ++ (hdrDosage ++ o)))) ++ (hdrSafety ++ s)
      from by simp [textNoDiagnosis]]
    apply field_greedy_at_seam
    rw [show (p ++ (hdrDrug ++ (g ++ (hdrDosage ++ o)))) ++ (hdrSafety ++ s)
      = textNoDiagnosis p g o s from by simp [textNoDiagnosis]]
    rw [show (p ++ (hdrDrug ++ (g ++ (hdrDosage ++ o)))).length =
        p.length + hdrDrug.length + g.length + hdrDosage.length + o.length
      from by simp [List.length_append]; omega]
    exact h4
  rw [show extractFields (String.mk (textNoDiagnosis p g o s)) =
    ExtractedFields.mk
      (fieldOr (searchLazy hdrDiagnosis [hdrDrug, hdrDosage, hdrSafety] (textNoDiagnosis p g o s)))
      (fieldOr (searchLazy hdrDrug [hdrDosage, hdrSafety] (textNoDiagnosis p g o s)))
      (fieldOr (searchLazy hdrDosage [hdrSafety] (textNoDiagnosis p g o s)))
      (fieldOr (searchGreedy hdrSafety (textNoDiagnosis p g o s))) from rfl]
  rw [hdiag, hdrug, hdos, hsaf]

theorem extract_no_drug (p d o s : List Char)
    (h1 : onlyAt hdrDiagnosis (textNoDrug p d o s) p.length)
    (h2 : noOccur hdrDrug (textNoDrug p d o s))
    (h3 : onlyAt hdrDosage (textNoDrug p d o s)
      (p.length + hdrDiagnosis.length + d.length))
    (h4 : onlyAt hdrSafety (textNoDrug p d o s)
      (p.length + hdrDiagnosis.length + d.length + hdrDosage.length + o.length)) :
    extractFields (String.mk (textNoDrug p d o s)) =
      ExtractedFields.mk (String.mk (pyStrip d)) "Not found"
        (String.mk (pyStrip o)) (String.mk (pyStrip s)) := by
  have e1 : hdrDiagnosis.length = 10 := rfl
  have e3 : hdrDosage.length = 33 := rfl
  have e4 : hdrSafety.length = 20 := rfl
  have hWlen : (textNoDrug p d o s).length =
      p.length + 10 + d.length + 33 + o.length + 20 + s.length := by
    simp [textNoDrug]
    omega
  have hdiag : fieldOr (searchLazy hdrDiagnosis [hdrDrug, hdrDosage, hdrSafety]
      (textNoDrug p d o s)) = String.mk (pyStrip d) := by
    rw [show textNoDrug p d o s =
      p ++ (hdrDiagnosis ++ (d ++ (hdrDosage ++ (o ++ (hdrSafety ++ s)))))
      from by simp [textNoDrug]]
    apply field_at_seam hdrDiagnosis _ p d hdrDosage
    · simp
    · decide
    · rw [show p ++ (hdrDiagnosis ++ (d ++ (hdrDosage ++ (o ++ (hdrSafety ++ s)))))
        = textNoDrug p d o s from by simp [textNoDrug]]
      exact h1
    · intro j hj h hm
      rw [← matchesAt_shift h (p ++ hdrDiagnosis) _ j]
      rw [show (p ++ hdrDiagnosis) ++ (d ++ (hdrDosage ++ (o ++ (hdrSafety ++ s))))
        = textNoDrug p d o s from by simp [textNoDrug]]
      have hpos : (p ++ hdrDiagnosis).length + j = p.length + 10 + j := by
        simp [e1]
      rw [hpos]
      fin_cases hm
      · exact h2 _ (by omega)
      · exact onlyAt_reject _ _ _ _ h3 (by omega) (by omega)
      · exact onlyAt_reject _ _ _ _ h4 (by omega) (by omega)
  have hdrug : fieldOr (searchLazy hdrDrug [hdrDosage, hdrSafety]
      (textNoDrug p d o s)) = "Not found" :=
    field_lazy_absent _ _ _ (by decide) h2
  have hdos : fieldOr (searchLazy hdrDosage [hdrSafety]
      (textNoDrug p d o s)) = String.mk (pyStrip o) := by
    rw [show textNoDrug p d o s =
      (p ++ (hdrDiagnosis ++ d)) ++ (hdrDosage ++ (o ++ (hdrSafety ++ s)))
      from by simp [textNoDrug]]
    apply field_at_seam
    · simp
    · decide
    · rw [show (p ++ (hdrDiagnosis ++ d)) ++ (hdrDosage ++ (o ++ (hdrSafety ++ s)))
        = textNoDrug p d o s from by simp [textNoDrug]]
      rw [show (p ++ (hdrDiagnosis ++ d)).length = p.length + hdrDiagnosis.length + d.length
        from by simp [List.length_append]; omega]
      exact h3
    · intro j hj h hm
      rw [← matchesAt_shift h (p ++ (hdrDiagnosis ++ (d ++ hdrDosage))) _ j]
      rw [show (p ++ (hdrDiagnosis ++ (d ++ hdrDosage))) ++ (o ++ (hdrSafety ++ s))
        = textNoDrug p d o s from by simp [textNoDrug]]
      have hpos : (p ++ (hdrDiagnosis ++ (d ++ hdrDosage))).length + j =
          p.length + 10 + d.length + 33 + j := by
        simp [List.length_append, e1, e3]
        omega
      rw [hpos]
      fin_cases hm
      · exact onlyAt_reject _ _ _ _ h4 (by omega) (by omega)
  have hsaf : fieldOr (searchGreedy hdrSafety (textNoDrug p d o s)) =
      String.mk (pyStrip s) := by
    rw [show textNoDrug p d o s =
      (p ++ (hdrDiagnosis ++ (d ++ (hdrDosage ++ o)))) ++ (hdrSafety ++ s)
      from by simp [textNoDrug]]
    apply field_greedy_at_seam
    rw [show (p ++ (hdrDiagnosis ++ (d ++ (hdrDosage ++ o)))) ++ (hdrSafety ++ s)
      = textNoDrug p d o s from by simp [textNoDrug]]
    rw [show (p ++ (hdrDiagnosis ++ (d ++ (hdrDosage ++ o)))).length =
        p.length + hdrDiagnosis.length + d.length + hdrDosage.length + o.length
      from by simp [List.length_append]; omega]
    exact h4
  rw [show extractFields (String.mk (textNoDrug p d o s)) =
    ExtractedFields.mk
      (fieldOr (searchLazy hdrDiagnosis [hdrDrug, hdrDosage, hdrSafety] (textNoDrug p d o s)))
      (fieldOr (searchLazy hdrDrug [hdrDosage, hdrSafety] (textNoDrug p d o s)))
      (fieldOr (searchLazy hdrDosage [hdrSafety] (textNoDrug p d o s)))
      (fieldOr (searchGreedy hdrSafety (textNoDrug p d o s))) from rfl]
  rw [hdiag, hdrug, hdos, hsaf]

theorem extract_no_dosage (p d g s : List Char)
    (h1 : onlyAt hdrDiagnosis (textNoDosage p d g s) p.length)
    (h2 : onlyAt hdrDrug (textNoDosage p d g s)
      (p.length + hdrDiagnosis.length + d.length))
    (h3 : noOccur hdrDosage (textNoDosage p d g s))
    (h4 : onlyAt hdrSafety (textNoDosage p d g s)
      (p.length + hdrDiagnosis.length + d.length + hdrDrug.length + g.length)) :
    extractFields (String.mk (textNoDosage p d g s)) =
      ExtractedFields.mk (String.mk (pyStrip d)) (String.mk (pyStrip g))
        "Not found" (String.mk (pyStrip s)) := by
  have e1 : hdrDiagnosis.length = 10 := rfl
  have e2 : hdrDrug.length = 18 := rfl
  have e4 : hdrSafety.length = 20 := rfl
  have hWlen : (textNoDosage p d g s).length =
      p.length + 10 + d.length + 18 + g.length + 20 + s.length := by
    simp [textNoDosage]
    omega
  have hdiag : fieldOr (searchLazy hdrDiagnosis [hdrDrug, hdrDosage, hdrSafety]
      (textNoDosage p d g s)) = String.mk (pyStrip d) := by
    rw [show textNoDosage p d g s =
      p ++ (hdrDiagnosis ++ (d ++ (hdrDrug ++ (g ++ (hdrSafety ++ s)))))
      from by simp [textNoDosage]]
    apply field_at_seam hdrDiagnosis _ p d hdrDrug
    · simp
    · decide
    · rw [show p ++ (hdrDiagnosis ++ (d ++ (hdrDrug ++ (g ++ (hdrSafety ++ s)))))
        = textNoDosage p d g s from by simp [textNoDosage]]
      exact h1
    · intro j hj h hm
      rw [← matchesAt_shift h (p ++ hdrDiagnosis) _ j]
      rw [show (p ++ hdrDiagnosis) ++ (d ++ (hdrDrug ++ (g ++ (hdrSafety ++ s))))
        = textNoDosage p d g s from by simp [textNoDosage]]
      have hpos : (p ++ hdrDiagnosis).length + j = p.length + 10 + j := by
        simp [e1]
      rw [hpos]
      fin_cases hm
      · exact onlyAt_reject _ _ _ _ h2 (by omega) (by omega)
      · exact h3 _ (by omega)
      · exact onlyAt_reject _ _ _ _ h4 (by omega) (by omega)
  have hdrug : fieldOr (searchLazy hdrDrug [hdrDosage, hdrSafety]
      (textNoDosage p d g s)) = String.mk (pyStrip g) := by
    rw [show textNoDosage p d g s =
      (p ++ (hdrDiagnosis ++ d)) ++ (hdrDrug ++ (g ++ (hdrSafety ++ s)))
      from by simp [textNoDosage]]
    apply field_at_seam hdrDrug _ _ g hdrSafety
    · simp
    · decide
    · rw [show (p ++ (hdrDiagnosis ++ d)) ++ (hdrDrug ++ (g ++ (hdrSafety ++ s)))
        = textNoDosage p d g s from by simp [textNoDosage]]
      rw [show (p ++ (hdrDiagnosis ++ d)).length = p.length + hdrDiagnosis.length + d.length
        from by simp [List.length_append]; omega]
      exact h2
    · intro j hj h hm
      rw [← matchesAt_shift h (p ++ (hdrDiagnosis ++ (d ++ hdrDrug))) _ j]
      rw [show (p ++ (hdrDiagnosis ++ (d ++ hdrDrug))) ++ (g ++ (hdrSafety ++ s))
        = textNoDosage p d g s from by simp [textNoDosage]]
      have hpos : (p ++ (hdrDiagnosis ++ (d ++ hdrDrug))).length + j =
          p.length + 10 + d.length + 18 + j := by
        simp [List.length_append, e1, e2]
        omega
      rw [hpos]
      fin_cases hm
      · exact h3 _ (by omega)
      · exact onlyAt_reject _ _ _ _ h4 (by omega) (by omega)
  have hdos : fieldOr (searchLazy hdrDosage [hdrSafety]
      (textNoDosage p d g s)) = "Not found" :=
    field_lazy_absent _ _ _ (by decide) h3
  have hsaf : fieldOr (searchGreedy hdrSafety (textNoDosage p d g s)) =
      String.mk (pyStrip s) := by
    rw [show textNoDosage p d g s =
      (p ++ (hdrDiagnosis ++ (d ++ (hdrDrug ++ g)))) ++ (hdrSafety ++ s)
      from by simp [textNoDosage]]
    apply field_greedy_at_seam
    rw [show (p ++ (hdrDiagnosis ++ (d ++ (hdrDrug ++ g)))) ++ (hdrSafety ++ s)
      = textNoDosage p d g s from by simp [textNoDosage]]
    rw [show (p ++ (hdrDiagnosis ++ (d ++ (hdrDrug ++ g)))).length =
        p.length + hdrDiagnosis.length + d.length + hdrDrug.length + g.length
      from by simp [List.length_append]; omega]
    exact h4
  rw [show extractFields (String.mk (textNoDosage p d g s)) =
    ExtractedFields.mk
      (fieldOr (searchLazy hdrDiagnosis [hdrDrug, hdrDosage, hdrSafety] (textNoDosage p d g s)))
      (fieldOr (searchLazy hdrDrug [hdrDosage, hdrSafety] (textNoDosage p d g s)))
      (fieldOr (searchLazy hdrDosage [hdrSafety] (textNoDosage p d g s)))
      (fieldOr (searchGreedy hdrSafety (textNoDosage p d g s))) from rfl]
  rw [hdiag, hdrug, hdos, hsaf]

theorem extract_no_safety (p d g o : List Char)
    (h1 : onlyAt hdrDiagnosis (textNoSafety p d g o) p.length)
    (h2 : onlyAt hdrDrug (textNoSafety p d g o)
      (p.length + hdrDiagnosis.length + d.length))
    (h3 : onlyAt hdrDosage (textNoSafety p d g o)
      (p.length + hdrDiagnosis.length + d.length + hdrDrug.length + g.length))
    (h4 : noOccur hdrSafety (textNoSafety p d g o)) :
    extractFields (String.mk (textNoSafety p d g o)) =
      ExtractedFields.mk (String.mk (pyStrip d)) (String.mk (pyStrip g))
        (String.mk (pyStrip o)) "Not found" := by
  have e1 : hdrDiagnosis.length = 10 := rfl
  have e2 : hdrDrug.length = 18 := rfl
  have e3 : hdrDosage.length = 33 := rfl
  have hWlen : (textNoSafety p d g o).length =
      p.length + 10 + d.length + 18 + g.length + 33 + o.length := by
    simp [textNoSafety]
    omega
  have hdiag : fieldOr (searchLazy hdrDiagnosis [hdrDrug, hdrDosage, hdrSafety]
      (textNoSafety p d g o)) = String.mk (pyStrip d) := by
    rw [show textNoSafety p d g o =
      p ++ (hdrDiagnosis ++ (d ++ (hdrDrug ++ (g ++ (hdrDosage ++ o)))))
      from by simp [textNoSafety]]
    apply field_at_seam hdrDiagnosis _ p d hdrDrug
    · simp
    · decide
    · rw [show p ++ (hdrDiagnosis ++ (d ++ (hdrDrug ++ (g ++ (hdrDosage ++ o)))))
        = textNoSafety p d g o from by simp [textNoSafety]]
      exact h1
    · intro j hj h hm
      rw [← matchesAt_shift h (p ++ hdrDiagnosis) _ j]
      rw [show (p ++ hdrDiagnosis) ++ (d ++ (hdrDrug ++ (g ++ (hdrDosage ++ o))))
        = textNoSafety p d g o from by simp [textNoSafety]]
      have hpos : (p ++ hdrDiagnosis).length + j = p.length + 10 + j := by
        simp [e1]
      rw [hpos]
      fin_cases hm
      · exact onlyAt_reject _ _ _ _ h2 (by omega) (by omega)
      · exact onlyAt_reject _ _ _ _ h3 (by omega) (by omega)
      · exact h4 _ (by omega)
  have hdrug : fieldOr (searchLazy hdrDrug [hdrDosage, hdrSafety]
      (textNoSafety p d g o)) = String.mk (pyStrip g) := by
    rw [show textNoSafety p d g o =
      (p ++ (hdrDiagnosis ++ d)) ++ (hdrDrug ++ (g ++ (hdrDosage ++ o)))
      from by simp [textNoSafety]]
    apply field_at_seam hdrDrug _ _ g hdrDosage
    · simp
    · decide
    · rw [show (p ++ (hdrDiagnosis ++ d)) ++ (hdrDrug ++ (g ++ (hdrDosage ++ o)))
        = textNoSafety p d g o from by simp [textNoSafety]]
      rw [show (p ++ (hdrDiagnosis ++ d)).length = p.length + hdrDiagnosis.length + d.length
        from by simp [List.length_append]; omega]
      exact h2
    · intro j hj h hm
      rw [← matchesAt_shift h (p ++ (hdrDiagnosis ++ (d ++ hdrDrug))) _ j]
      rw [show (p ++ (hdrDiagnosis ++ (d ++ hdrDrug))) ++ (g ++ (hdrDosage ++ o))
        = textNoSafety p d g o from by simp [textNoSafety]]
      have hpos : (p ++ (hdrDiagnosis ++ (d ++ hdrDrug))).length + j =
          p.length + 10 + d.length + 18 + j := by
        simp [List.length_append, e1, e2]
        omega
      rw [hpos]
      fin_cases hm
      · exact onlyAt_reject _ _ _ _ h3 (by omega) (by omega)
      · exact h4 _ (by omega)
  have hdos : fieldOr (searchLazy hdrDosage [hdrSafety]
      (textNoSafety p d g o)) = String.mk (pyStrip o) := by
    rw [show textNoSafety p d g o =
      (p ++ (hdrDiagnosis ++ (d ++ (hdrDrug ++ g)))) ++ (hdrDosage ++ o)
      from by simp [textNoSafety]]
    apply field_at_tail
    · decide
    · rw [show (p ++ (hdrDiagnosis ++ (d ++ (hdrDrug ++ g)))) ++ (hdrDosage ++ o)
        = textNoSafety p d g o from by simp [textNoSafety]]
      rw [show (p ++ (hdrDiagnosis ++ (d ++ (hdrDrug ++ g)))).length =
          p.length + hdrDiagnosis.length + d.length + hdrDrug.length + g.length
        from by simp [List.length_append]; omega]
      exact h3
    · intro j hj h hm
      rw [← matchesAt_shift h (p ++ (hdrDiagnosis ++ (d ++ (hdrDrug ++ (g ++ hdrDosage))))) _ j]
      rw [show (p ++ (hdrDiagnosis ++ (d ++ (hdrDrug ++ (g ++ hdrDosage))))) ++ o
        = textNoSafety p d g o from by simp [textNoSafety]]
      have hpos : (p ++ (hdrDiagnosis ++ (d ++ (hdrDrug ++ (g ++ hdrDosage))))).length + j =
          p.length + 10 + d.length + 18 + g.length + 33 + j := by
        simp [List.length_append, e1, e2, e3]
        omega
      rw [hpos]
      fin_cases hm
      · exact h4 _ (by omega)
  have hsaf : fieldOr (searchGreedy hdrSafety (textNoSafety p d g o)) = "Not found" :=
    field_greedy_absent _ _ (by decide) h4
  rw [show extractFields (String.mk (textNoSafety p d g o)) =
    ExtractedFields.mk
      (fieldOr (searchLazy hdrDiagnosis [hdrDrug, hdrDosage, hdrSafety] (textNoSafety p d g o)))
      (fieldOr (searchLazy hdrDrug [hdrDosage, hdrSafety] (textNoSafety p d g o)))
      (fieldOr (searchLazy hdrDosage [hdrSafety] (textNoSafety p d g o)))
      (fieldOr (searchGreedy hdrSafety (textNoSafety p d g o))) from rfl]
  rw [hdiag, hdrug, hdos, hsaf]

/-- C1: extractFields searches the four headers in the fixed order
Diagnosis, Proposed New Drug, Hypothetical Dosage/Instructions,
Allergy/Safety Note (case-insensitively, across newlines); each field
is the text from just after its header up to the start of the next
recognized header present in the input (or the end of the text for the
last field), trimmed, so no field contains the next header's content;
and when one header is absent exactly that field is the literal Not
found while the remaining fields are still extracted correctly.  The
five conjuncts cover the well-formed input and each single-missing
header, with hypotheses stating that every present header occurs only
at its seam. -/
theorem claim1_extract_fields :
    (∀ p d g o s : List Char,
      onlyAt hdrDiagnosis (fourHeaderText p d g o s) p.length →
      onlyAt hdrDrug (fourHeaderText p d g o s)
        (p.length + hdrDiagnosis.length + d.length) →
      onlyAt hdrDosage (fourHeaderText p d g o s)
        (p.length + hdrDiagnosis.length + d.length + hdrDrug.length + g.length) →
      onlyAt hdrSafety (fourHeaderText p d g o s)
        (p.length + hdrDiagnosis.length + d.length + hdrDrug.length + g.length +
          hdrDosage.length + o.length) →
      extractFields (String.mk (fourHeaderText p d g o s)) =
        ExtractedFields.mk (String.mk (pyStrip d)) (String.mk (pyStrip g))
          (String.mk (pyStrip o)) (String.mk (pyStrip s))) ∧
    (∀ p g o s : List Char,
      noOccur hdrDiagnosis (textNoDiagnosis p g o s) →
      onlyAt hdrDrug (textNoDiagnosis p g o s) p.length →
      onlyAt hdrDosage (textNoDiagnosis p g o s)
        (p.length + hdrDrug.length + g.length) →
      onlyAt hdrSafety (textNoDiagnosis p g o s)
        (p.length + hdrDrug.length + g.length + hdrDosage.length + o.length) →
      extractFields (String.mk (textNoDiagnosis p g o s)) =
        ExtractedFields.mk "Not found" (String.mk (pyStrip g))
          (String.mk (pyStrip o)) (String.mk (pyStrip s))) ∧
    (∀ p d o s : List Char,
      onlyAt hdrDiagnosis (textNoDrug p d o s) p.length →
      noOccur hdrDrug (textNoDrug p d o s) →
      onlyAt hdrDosage (textNoDrug p d o s)
        (p.length + hdrDiagnosis.length + d.length) →
      onlyAt hdrSafety (textNoDrug p d o s)
        (p.length + hdrDiagnosis.length + d.length + hdrDosage.length + o.length) →
      extractFields (String.mk (textNoDrug p d o s)) =
        ExtractedFields.mk (String.mk (pyStrip d)) "Not found"
          (String.mk (pyStrip o)) (String.mk (pyStrip s))) ∧
    (∀ p d g s : List Char,
      onlyAt hdrDiagnosis (textNoDosage p d g s) p.length →
      onlyAt hdrDrug (textNoDosage p d g s)
        (p.length + hdrDiagnosis.length + d.length) →
      noOccur hdrDosage (textNoDosage p d g s) →
      onlyAt hdrSafety (textNoDosage p d g s)
        (p.length + hdrDiagnosis.length + d.length + hdrDrug.length + g.length) →
      extractFields (String.mk (textNoDosage p d g s)) =
        ExtractedFields.mk (String.mk (pyStrip d)) (String.mk (pyStrip g))
          "Not found" (String.mk (pyStrip s))) ∧
    (∀ p d g o : List Char,
      onlyAt hdrDiagnosis (textNoSafety p d g o) p.length →
      onlyAt hdrDrug (textNoSafety p d g o)
        (p.length + hdrDiagnosis.length + d.length) →
      onlyAt hdrDosage (textNoSafety p d g o)
        (p.length + hdrDiagnosis.length + d.length + hdrDrug.length + g.length) →
      noOccur hdrSafety (textNoSafety p d g o) →
      extractFields (String.mk (textNoSafety p d g o)) =
        ExtractedFields.mk (String.mk (pyStrip d)) (String.mk (pyStrip g))
          (String.mk (pyStrip o)) "Not found") :=
  ⟨extract_all_present, extract_no_diagnosis, extract_no_drug,
    extract_no_dosage, extract_no_safety⟩

/-- Witness for C1: a concrete well-formed response and a concrete
response missing the safety header, with the uniqueness hypotheses
checked by evaluation. -/
theorem claim1_extract_fields_witness :
    extractFields (String.mk (fourHeaderText "Hi\n".data " flu\n".data " X\n".data
        " 1x\n".data " no\n".data)) = ExtractedFields.mk "flu" "X" "1x" "no" ∧
    extractFields (String.mk (textNoSafety "Hi\n".data " flu\n".data " X\n".data
        " 1x\n".data)) = ExtractedFields.mk "flu" "X" "1x" "Not found" := by
  constructor
  · have h := claim1_extract_fields.1 "Hi\n".data " flu\n".data " X\n".data
      " 1x\n".data " no\n".data (by decide) (by decide) (by decide) (by decide)
    rw [h]
    decide
  · have h := claim1_extract_fields.2.2.2.2 "Hi\n".data " flu\n".data " X\n".data
      " 1x\n".data (by decide) (by decide) (by decide) (by decide)
    rw [h]
    decide

/-- C4 as stated is false at a whitespace-only input: with the service
available, gemini_translate returns the empty string for a one-space
text even when source equals target, because the emptiness check fires
before the identical-codes check, so the input is not returned
unchanged. -/
theorem claim4_counterexample :
    gemini_translate oracleOk " " (some "en") (some "en") ≠ " " := by
  decide

/-- C4 amended: the translate operation returns its input unchanged
whenever the service is unavailable; with the service available it
returns the empty string whenever the text is empty or
whitespace-only; it returns the input unchanged when the source code
is a supported code equal to the target and the text has
non-whitespace content; hence translate(text, X, X, _) = text for
every supported code X and non-blank text, and translate("", A, B, _)
= "" for all codes A, B. -/
theorem claim4_translate_identity :
    (∀ (g : Gemini) (text : String) (src tgt : Option String),
      g.available = false → gemini_translate g text src tgt = text) ∧
    (∀ (g : Gemini) (text : String) (src tgt : Option String),
      g.available = true → pyStrip text.data = [] →
      gemini_translate g text src tgt = "") ∧
    (∀ (g : Gemini) (text : String) (code : String),
      code ∈ LANG_VALUES → pyStrip text.data ≠ [] →
      gemini_translate g text (some code) (some code) = text) ∧
    (∀ (g : Gemini) (src tgt : Option String),
      gemini_translate g "" src tgt = "") := by
  refine ⟨?_, ?_, ?_, ?_⟩
  · intro g text src tgt h
    simp [gemini_translate, h]
  · intro g text src tgt h1 h2
    simp [gemini_translate, h1, h2]
  · intro g text code hmem htext
    by_cases hav : g.available = false
    · simp [gemini_translate, hav]
    · have hauto : code ≠ "auto" := by
        intro h
        subst h
        revert hmem
        decide
      simp only [gemini_translate, if_neg hav, if_neg htext, hmem, if_pos]
      rw [if_pos ⟨hauto, trivial⟩]
  · intro g src tgt
    by_cases hav : g.available = false
    · simp [gemini_translate, hav]
    · simp [gemini_translate, hav, pyStrip]

/-- Witness for C4 amended: each conjunct applied at a concrete
input. -/
theorem claim4_translate_identity_witness :
    gemini_translate oracleDown "hola" (some "es") (some "en") = "hola" ∧
    gemini_translate oracleOk " " (some "en") (some "fr") = "" ∧
    gemini_translate oracleOk "hello" "en" "en" = "hello" ∧
    gemini_translate oracleOk "" (some "en") (some "fr") = "" :=
  ⟨claim4_translate_identity.1 oracleDown "hola" (some "es") (some "en") rfl,
   claim4_translate_identity.2.1 oracleOk " " (some "en") (some "fr") rfl (by decide),
   claim4_translate_identity.2.2.1 oracleOk "hello" "en" (by decide) (by decide),
   claim4_translate_identity.2.2.2 oracleOk (some "en") (some "fr")⟩

/-- C5: gemini_translate never propagates a request failure: whenever
the text has content to translate and every completion request raises,
the original untranslated text is returned (when the text is blank no
request is issued at all, and the blank result is covered by C4). -/
theorem claim5_translate_no_propagate (g : Gemini) (text : String)
    (src tgt : Option String) (e : String)
    (htext : pyStrip text.data ≠ [])
    (hfail : ∀ p, g.complete p = Except.error e) :
    gemini_translate g text src tgt = text := by
  by_cases hav : g.available = false
  · simp [gemini_translate, hav]
  · simp only [gemini_translate, if_neg hav, if_neg htext]
    split
    · rfl
    · rw [hfail]

/-- Witness for C5: a failing service and a concrete text whose
translation request raises; the original text comes back. -/
theorem claim5_translate_no_propagate_witness :
    gemini_translate oracleFail "hello" (some "en") (some "fr") = "hello" :=
  claim5_translate_no_propagate oracleFail "hello" (some "en") (some "fr") "boom"
    (by decide) (fun _ => rfl)

/-- C7: whenever turn processing raises, the exception is caught at
the top level: the bot message of the freshly appended turn row is
replaced by the generic error string built from the exception text,
both summary outputs show the error, and the returned session state is
the fresh initial state, discarding everything collected. -/
theorem claim7_exception_reset (g : Gemini) (e message : String)
    (history0 : List (String × String)) (state : ChatState) :
    (process_chat g (some e) message history0 state).state = initialize_chat_state ∧
    (process_chat g (some e) message history0 state).history =
      setLast (history0 ++ [(message, "")]) message
        ("An error occurred: " ++ e ++ ". Please try again or restart the conversation.") ∧
    (process_chat g (some e) message history0 state).english_summary =
      "Error: " ++ ("An error occurred: " ++ e ++ ". Please try again or restart the conversation.") ∧
    (process_chat g (some e) message history0 state).translated_summary_out =
      "Error: " ++ ("An error occurred: " ++ e ++ ". Please try again or restart the conversation.") :=
  ⟨rfl, rfl, rfl, rfl⟩

/-- Characterisation of setLast on a history that ends with the
freshly appended user row: only the bot half of the final row
changes. -/
theorem setLast_append_singleton (l : List (String × String)) (p : String × String)
    (message bot : String) :
    setLast (l ++ [p]) message bot = l ++ [(p.1, bot)] := by
  induction l with
  | nil => rfl
  | cons q l ih =>
    cases l with
    | nil => rfl
    | cons r l2 =>
      show q :: setLast ((r :: l2) ++ [p]) message bot = q :: ((r :: l2) ++ [(p.1, bot)])
      rw [ih]

/-- The bot text of the last visible row after setLast onto a history
that ends with the freshly appended user row. -/
theorem getLast_setLast (l : List (String × String)) (p : String × String)
    (message bot : String) :
    (setLast (l ++ [p]) message bot).getLast? = some (p.1, bot) := by
  rw [setLast_append_singleton, List.getLast?_concat]

/-- C2: in every processed turn the stage index never decreases
(AskLanguage through GeneralQnA in the fixed order, GeneralQnA
self-looping), except that a reset, whether the explicit error resets
of the language-missing branches or the top-level exception handler,
returns the whole session to the initial state with every other field
cleared. -/
theorem claim2_stage_monotone (g : Gemini) (exc : Option String) (message : String)
    (history0 : List (String × String)) (state : ChatState) :
    stageIdx state.stage ≤ stageIdx (process_chat g exc message history0 state).state.stage ∨
    (process_chat g exc message history0 state).state = initialize_chat_state := by
  cases exc with
  | some e => right; rfl
  | none =>
    obtain ⟨stg, lang, lc, sul, sen, aul, aen, den, dcf, hman, ts⟩ := state
    cases stg
    case ask_language => left; exact Nat.zero_le _
    case ask_symptoms =>
      simp only [process_chat, step_stage, step_ask_symptoms]
      split
      · right; rfl
      · split
        · left; exact Nat.le_refl _
        · left
          show stageIdx Stage.ask_symptoms ≤ stageIdx Stage.ask_allergies
          decide
    case ask_allergies =>
      simp only [process_chat, step_stage, step_ask_allergies]
      split
      · right; rfl
      · left
        show stageIdx Stage.ask_allergies ≤ stageIdx Stage.general_qna
        decide
    case generate_response => left; exact Nat.le_refl _
    case general_qna => left; exact Nat.le_refl _

/-- A successful dictionary lookup names a pair of the language
table. -/
theorem langLookup_some (name code : String) (h : langLookup name = some code) :
    ∃ pr, pr ∈ LANG_CODES ∧ pr.1 = name ∧ pr.2 = code := by
  unfold langLookup at h
  cases hf : LANG_CODES.find? (fun p => p.1 == name) with
  | none => rw [hf] at h; exact absurd h (by simp)
  | some pr =>
    rw [hf] at h
    simp only [Option.map_some', Option.some.injEq] at h
    refine ⟨pr, List.mem_of_find?_eq_some hf, ?_, h⟩
    have := List.find?_some hf
    simpa using this

/-- C9: the lang_code field is written exactly once, by a successful
AskLanguage turn (which also stores the matching language name and
moves to AskSymptoms); every other turn either leaves it untouched or
replaces the whole session by the initial state. -/
theorem claim9_lang_code_immutable (g : Gemini) (exc : Option String)
    (message : String) (history0 : List (String × String)) (state : ChatState) :
    (process_chat g exc message history0 state).state.lang_code = state.lang_code ∨
    (process_chat g exc message history0 state).state = initialize_chat_state ∨
    (state.stage = Stage.ask_language ∧
      (process_chat g exc message history0 state).state.stage = Stage.ask_symptoms ∧
      ∃ pr, pr ∈ LANG_CODES ∧
        (process_chat g exc message history0 state).state.language = some pr.1 ∧
        (process_chat g exc message history0 state).state.lang_code = some pr.2) := by
  cases exc with
  | some e => right; left; rfl
  | none =>
    obtain ⟨stg, lang, lc, sul, sen, aul, aen, den, dcf, hman, ts⟩ := state
    cases stg
    case ask_language =>
      simp only [process_chat, step_stage, step_ask_language]
      split
      next code hsel =>
        right; right
        obtain ⟨pr, hmem, hname, hcode⟩ := langLookup_some _ _ hsel
        exact ⟨by trivial, by trivial, pr, hmem, by rw [hname], by rw [hcode]⟩
      next hsel => left; rfl
    case ask_symptoms =>
      simp only [process_chat, step_stage, step_ask_symptoms]
      split
      · right; left; rfl
      · split
        · left; rfl
        · left; rfl
    case ask_allergies =>
      simp only [process_chat, step_stage, step_ask_allergies]
      split
      · right; left; rfl
      · left; rfl
    case generate_response => left; rfl
    case general_qna => left; rfl

/-- C10: a GeneralQnA turn that completes without an exception leaves
every session field unchanged, stage, language, lang_code, the two
symptom fields, the two allergy fields, the stored full response and
the stored translated summary alike; only the manual turn history
grows, by one user entry followed by one model entry. -/
theorem claim10_qna_frame (g : Gemini) (message : String)
    (history0 : List (String × String)) (state : ChatState)
    (hst : state.stage = Stage.general_qna) :
    (process_chat g none message history0 state).state.stage = state.stage ∧
    (process_chat g none message history0 state).state.language = state.language ∧
    (process_chat g none message history0 state).state.lang_code = state.lang_code ∧
    (process_chat g none message history0 state).state.symptoms_user_lang =
      state.symptoms_user_lang ∧
    (process_chat g none message history0 state).state.symptoms_en = state.symptoms_en ∧
    (process_chat g none message history0 state).state.allergies_user_lang =
      state.allergies_user_lang ∧
    (process_chat g none message history0 state).state.allergies_en = state.allergies_en ∧
    (process_chat g none message history0 state).state.drug_concept_full_en =
      state.drug_concept_full_en ∧
    (process_chat g none message history0 state).state.translated_summary =
      state.translated_summary ∧
    ∃ u m : HistEntry, u.role = "user" ∧ m.role = "model" ∧
      (process_chat g none message history0 state).state.gemini_chat_history_manual =
        state.gemini_chat_history_manual ++ [u, m] := by
  obtain ⟨stg, lang, lc, sul, sen, aul, aen, den, dcf, hman, ts⟩ := state
  have h2 : stg = Stage.general_qna := hst
  subst h2
  refine ⟨rfl, rfl, rfl, rfl, rfl, rfl, rfl, rfl, rfl, ?_⟩
  refine ⟨HistEntry.mk "user"
      (if lc ≠ some "en" ∧ lc ≠ none ∧ pyStrip message.data ≠ []
        then gemini_translate g message lc (some "en") else message),
    HistEntry.mk "model"
      (get_gemini_response g
        (qnaContext (pyStr sen) (pyStr aen) (pyStr dcf)
          (if lc ≠ some "en" ∧ lc ≠ none ∧ pyStrip message.data ≠ []
            then gemini_translate g message lc (some "en") else message)) []),
    rfl, rfl, ?_⟩
  simp only [process_chat, step_stage, step_general_qna]
  simp [List.append_assoc]

/-- Witness for C10: a concrete follow-up turn leaves the stored
summary and stage untouched. -/
theorem claim10_qna_frame_witness :
    (process_chat oracleOk none "And the dosage?" [] qnaState).state.translated_summary =
      qnaState.translated_summary ∧
    (process_chat oracleOk none "And the dosage?" [] qnaState).state.stage =
      qnaState.stage :=
  ⟨(claim10_qna_frame oracleOk "And the dosage?" [] qnaState rfl).2.2.2.2.2.2.2.2.1,
   (claim10_qna_frame oracleOk "And the dosage?" [] qnaState rfl).1⟩

/-- C6 as stated is false on the code: when the completion service
fails during the diagnosis call, the stored full response is the
descriptive failure message, but that message contains none of the
four headers, so every extracted field is the literal Not found; no
extracted field holds the failure message. -/
theorem claim6_counterexample :
    (process_chat oracleDown none "penicillin" [] allergyState).state.drug_concept_full_en =
      some "Error: Gemini API not available. Cannot provide medical information." ∧
    extractFields "Error: Gemini API not available. Cannot provide medical information." =
      ExtractedFields.mk "Not found" "Not found" "Not found" "Not found" ∧
    "Not found" ≠ "Error: Gemini API not available. Cannot provide medical information." :=
  ⟨rfl, by decide, by decide⟩

/-- C6 amended: when the completion service fails during the
diagnosis-generation call (here: the unavailable-client failure mode,
whose message is a fixed string), the descriptive failure message is
stored whole as the full model response and surfaces untranslated as
the bot message of the turn; extraction is still run on it and does
not abort the turn, but since the message carries none of the four
headers every one of the four extracted fields is the literal Not
found (not the failure message), and the turn still completes:
the stage reaches GeneralQnA and a translated summary is stored. -/
theorem claim6_failure_inline (g : Gemini) (message : String)
    (history0 : List (String × String)) (state : ChatState) (code : String)
    (hav : g.available = false)
    (hst : state.stage = Stage.ask_allergies)
    (hlc : state.lang_code = some code) (hcode : code ≠ "") :
    (process_chat g none message history0 state).state.drug_concept_full_en =
      some "Error: Gemini API not available. Cannot provide medical information." ∧
    (process_chat g none message history0 state).state.stage = Stage.general_qna ∧
    extractFields "Error: Gemini API not available. Cannot provide medical information." =
      ExtractedFields.mk "Not found" "Not found" "Not found" "Not found" ∧
    ((process_chat g none message history0 state).state.translated_summary).isSome = true ∧
    (process_chat g none message history0 state).history.getLast?.map Prod.snd =
      some "Error: Gemini API not available. Cannot provide medical information." := by
  obtain ⟨stg, lang, lc, sul, sen, aul, aen, den, dcf, hman, ts⟩ := state
  have h2 : stg = Stage.ask_allergies := hst
  subst h2
  have h3 : lc = some code := hlc
  subst h3
  have hfalsy : falsyOpt (some code) = false := by
    simp [falsyOpt, hcode]
  refine ⟨?_, ?_, by decide, ?_, ?_⟩
  · simp only [process_chat, step_stage, step_ask_allergies, hfalsy]
    simp [get_gemini_response, hav]
  · simp only [process_chat, step_stage, step_ask_allergies, hfalsy]
    simp
  · simp only [process_chat, step_stage, step_ask_allergies, hfalsy]
    simp
  · simp only [process_chat, step_stage, step_ask_allergies, hfalsy]
    simp [gemini_translate, get_gemini_response, hav, setLast_append_singleton,
      List.getLast?_concat]

/-- Witness for C6 amended: the concrete unavailable-service turn. -/
theorem claim6_failure_inline_witness :
    (process_chat oracleDown none "penicillin" [] allergyState).state.drug_concept_full_en =
      some "Error: Gemini API not available. Cannot provide medical information." ∧
    (process_chat oracleDown none "penicillin" [] allergyState).history.getLast?.map Prod.snd =
      some "Error: Gemini API not available. Cannot provide medical information." :=
  ⟨(claim6_failure_inline oracleDown "penicillin" [] allergyState "en" rfl rfl rfl
      (by decide)).1,
   (claim6_failure_inline oracleDown "penicillin" [] allergyState "en" rfl rfl rfl
      (by decide)).2.2.2.2⟩

theorem splitHashes_ne_nil (l : List Char) : splitHashes l ≠ [] := by
  induction l with
  | nil => simp [splitHashes]
  | cons c cs ih =>
    rw [splitHashes.eq_def]
    split
    · simp
    case h_2 x c2 rest hne heq =>
      injection heq with h1 h2
      subst h1
      subst h2
      cases h : splitHashes cs with
      | nil => simp [modHead]
      | cons p ps => simp [modHead]
    · simp

theorem splitHashes_cons_no_hash (c : Char) (cs : List Char) (hc : c ≠ '#') :
    splitHashes (c :: cs) = modHead [c] (splitHashes cs) := by
  rw [splitHashes.eq_def]
  split
  case h_1 x rest heq =>
    injection heq with h1 h2
    exact absurd h1 hc
  case h_2 x c2 rest hne heq =>
    injection heq with h1 h2
    subst h1
    subst h2
    cases h : splitHashes cs with
    | nil => simp [modHead]
    | cons p ps => simp [modHead]
  case h_3 x heq => exact absurd heq (by simp)

theorem modHead_modHead (c : Char) (x : List Char) (S : List (List Char)) :
    modHead [c] (modHead x S) = modHead (c :: x) S := by
  cases S with
  | nil => rfl
  | cons p ps => rfl

theorem splitHashes_append_no_hash (x y : List Char) (hx : '#' ∉ x) :
    splitHashes (x ++ y) = modHead x (splitHashes y) := by
  induction x with
  | nil =>
    cases h : splitHashes y with
    | nil => exact absurd h (splitHashes_ne_nil y)
    | cons p ps => simp [modHead, h]
  | cons c x2 ih =>
    have hc : c ≠ '#' := by
      intro h
      exact hx (by simp [h])
    have hx2 : '#' ∉ x2 := by
      intro h
      exact hx (by simp [h])
    rw [List.cons_append, splitHashes_cons_no_hash c (x2 ++ y) hc, ih hx2,
      modHead_modHead]

theorem splitHashes_no_hash (x : List Char) (hx : '#' ∉ x) :
    splitHashes x = [x] := by
  have := splitHashes_append_no_hash x [] hx
  rw [List.append_nil] at this
  rw [this]
  simp [splitHashes, modHead]

theorem splitHashes_lead (x : List Char) :
    splitHashes ('#' :: '#' :: '#' :: x) = [] :: splitHashes x := rfl

theorem splitFirstColon_seam (t b : List Char) (ht : ':' ∉ t) :
    splitFirstColon (t ++ ':' :: b) = some (t, b) := by
  induction t with
  | nil => rfl
  | cons c t2 ih =>
    have hc : c ≠ ':' := by
      intro h
      exact ht (by simp [h])
    have ht2 : ':' ∉ t2 := by
      intro h
      exact ht (by simp [h])
    rw [List.cons_append, splitFirstColon.eq_def]
    split
    case h_1 x heq => exact absurd heq (by simp)
    case h_2 x rest heq =>
      injection heq with h1 h2
      exact absurd h1 hc
    case h_3 x c2 rest hne heq =>
      injection heq with h1 h2
      subst h1
      subst h2
      rw [ih ht2]
      rfl

theorem dropWhile_ne_nil_of_mem (p : Char → Bool) (x : Char) (l : List Char)
    (hmem : x ∈ l) (hx : p x = false) : l.dropWhile p ≠ [] := by
  induction l with
  | nil => exact absurd hmem (by simp)
  | cons c cs ih =>
    rw [List.dropWhile]
    split
    next hpc =>
      have : x ∈ cs := by
        rcases List.mem_cons.mp hmem with h | h
        · subst h
          rw [hx] at hpc
          exact absurd hpc (by simp)
        · exact h
      exact ih this
    next hpc => simp

theorem mem_dropWhile_of_mem (p : Char → Bool) (x : Char) (l : List Char)
    (hmem : x ∈ l) (hx : p x = false) : x ∈ l.dropWhile p := by
  induction l with
  | nil => exact absurd hmem (by simp)
  | cons c cs ih =>
    rw [List.dropWhile]
    split
    next hpc =>
      rcases List.mem_cons.mp hmem with h | h
      · subst h
        rw [hx] at hpc
        exact absurd hpc (by simp)
      · exact ih h
    next hpc => exact hmem

theorem pyStrip_ne_nil_of_colon (l : List Char) (hmem : ':' ∈ l) :
    pyStrip l ≠ [] := by
  unfold pyStrip
  have h1 : ':' ∈ l.dropWhile Char.isWhitespace :=
    mem_dropWhile_of_mem _ ':' l hmem (by decide)
  have h2 : ':' ∈ (l.dropWhile Char.isWhitespace).reverse := by
    simpa using h1
  have h3 := dropWhile_ne_nil_of_mem Char.isWhitespace ':' _ h2 (by decide)
  simpa using h3

/-- C8: the export renderer returns none while the session holds no
translated summary (missing key or empty string); otherwise it splits
the summary on the heading marker, skips chunks that strip to nothing,
renders each chunk with a colon as a title/body section split at the
first colon, and a summary with two heading-marked chunks therefore
yields exactly two titled sections. -/
theorem claim8_pdf_render :
    (∀ st : ChatState, st.translated_summary = none ∨ st.translated_summary = some "" →
      generate_pdf_report st = none) ∧
    (∀ (st : ChatState) (t1 b1 t2 b2 : List Char),
      '#' ∉ t1 → '#' ∉ b1 → '#' ∉ t2 → '#' ∉ b2 → ':' ∉ t1 → ':' ∉ t2 →
      st.translated_summary =
        some (String.mk ("###".data ++ t1 ++ ':' :: b1 ++ "###".data ++ t2 ++ ':' :: b2)) →
      generate_pdf_report st =
        some [PdfSection.titled (String.mk (pyStrip t1)) (String.mk (pyStrip b1)),
              PdfSection.titled (String.mk (pyStrip t2)) (String.mk (pyStrip b2))]) := by
  constructor
  · intro st h
    rcases h with h | h <;> simp [generate_pdf_report, h]
  · intro st t1 b1 t2 b2 hh1 hh2 hh3 hh4 hc1 hc2 hts
    have hx1 : '#' ∉ (t1 ++ ':' :: b1) := by
      intro hmm
      rcases List.mem_append.mp hmm with h | h
      · exact hh1 h
      · rcases List.mem_cons.mp h with h | h
        · exact absurd h (by decide)
        · exact hh2 h
    have hx2 : '#' ∉ (t2 ++ ':' :: b2) := by
      intro hmm
      rcases List.mem_append.mp hmm with h | h
      · exact hh3 h
      · rcases List.mem_cons.mp h with h | h
        · exact absurd h (by decide)
        · exact hh4 h
    have hdw : ("###".data ++ t1 ++ ':' :: b1 ++ "###".data ++ t2 ++ ':' :: b2) =
        '#' :: '#' :: '#' :: ((t1 ++ ':' :: b1) ++ ('#' :: '#' :: '#' :: (t2 ++ ':' :: b2))) := by
      rw [show "###".data = ['#', '#', '#'] from rfl]
      simp [List.append_assoc]
    have hsplit : splitHashes ("###".data ++ t1 ++ ':' :: b1 ++ "###".data ++ t2 ++ ':' :: b2) =
        [[], t1 ++ ':' :: b1, t2 ++ ':' :: b2] := by
      rw [hdw, splitHashes_lead, splitHashes_append_no_hash _ _ hx1, splitHashes_lead,
        splitHashes_no_hash _ hx2]
      simp [modHead]
    have hne : String.mk ("###".data ++ t1 ++ ':' :: b1 ++ "###".data ++ t2 ++ ':' :: b2) ≠ "" := by
      intro h
      have := congrArg String.data h
      rw [hdw] at this
      simp at this
    have hs1 : pyStrip (t1 ++ ':' :: b1) ≠ [] :=
      pyStrip_ne_nil_of_colon _ (by simp)
    have hs2 : pyStrip (t2 ++ ':' :: b2) ≠ [] :=
      pyStrip_ne_nil_of_colon _ (by simp)
    unfold generate_pdf_report
    rw [hts]
    simp only [Option.getD_some]
    rw [if_neg hne]
    show some (renderSections (splitHashes
        ("###".data ++ t1 ++ ':' :: b1 ++ "###".data ++ t2 ++ ':' :: b2))) =
      some [PdfSection.titled (String.mk (pyStrip t1)) (String.mk (pyStrip b1)),
            PdfSection.titled (String.mk (pyStrip t2)) (String.mk (pyStrip b2))]
    rw [hsplit]
    rw [renderSections, if_pos (show pyStrip ([] : List Char) = [] from rfl)]
    rw [renderSections, if_neg hs1, splitFirstColon_seam t1 b1 hc1]
    rw [renderSections, if_neg hs2, splitFirstColon_seam t2 b2 hc2]
    rfl

/-- Witness for C8: the empty session exports nothing and a two-chunk
summary exports two titled sections. -/
theorem claim8_pdf_render_witness :
    generate_pdf_report initialize_chat_state = none ∧
    generate_pdf_report pdfState =
      some [PdfSection.titled "Diagnosis" "flu", PdfSection.titled "Dosage" "1x"] := by
  constructor
  · exact claim8_pdf_render.1 initialize_chat_state (Or.inl rfl)
  · have h := claim8_pdf_render.2 pdfState " Diagnosis".data "\nflu\n".data
      " Dosage".data "\n1x\n".data (by decide) (by decide) (by decide) (by decide)
      (by decide) (by decide) rfl
    rw [h]
    decide

/-! ## Character case analysis, for the title-casing of the language
selection -/

theorem char_toNat_ofNat_valid (n : Nat) (h : n.isValidChar) :
    (Char.ofNat n).toNat = n := by
  rw [Char.ofNat, dif_pos h]
  rfl

theorem char_eq_of_toNat_eq {c d : Char} (h : c.toNat = d.toNat) : c = d :=
  Char.eq_of_val_eq (UInt32.ext h)

theorem uint32_le_iff (a b : UInt32) : a ≤ b ↔ a.toNat ≤ b.toNat := Iff.rfl

theorem char_isUpper_iff (c : Char) :
    c.isUpper = true ↔ 65 ≤ c.toNat ∧ c.toNat ≤ 90 := by
  unfold Char.isUpper
  rw [Bool.and_eq_true, decide_eq_true_iff, decide_eq_true_iff]
  constructor
  · intro ⟨h1, h2⟩
    exact ⟨(uint32_le_iff _ _).mp h1, (uint32_le_iff _ _).mp h2⟩
  · intro ⟨h1, h2⟩
    exact ⟨(uint32_le_iff _ _).mpr h1, (uint32_le_iff _ _).mpr h2⟩

theorem char_isLower_iff (c : Char) :
    c.isLower = true ↔ 97 ≤ c.toNat ∧ c.toNat ≤ 122 := by
  unfold Char.isLower
  rw [Bool.and_eq_true, decide_eq_true_iff, decide_eq_true_iff]
  constructor
  · intro ⟨h1, h2⟩
    exact ⟨(uint32_le_iff _ _).mp h1, (uint32_le_iff _ _).mp h2⟩
  · intro ⟨h1, h2⟩
    exact ⟨(uint32_le_iff _ _).mpr h1, (uint32_le_iff _ _).mpr h2⟩

theorem char_isAlpha_iff (c : Char) :
    c.isAlpha = true ↔ (65 ≤ c.toNat ∧ c.toNat ≤ 90) ∨ (97 ≤ c.toNat ∧ c.toNat ≤ 122) := by
  unfold Char.isAlpha
  rw [Bool.or_eq_true, char_isUpper_iff, char_isLower_iff]

theorem char_toLower_eq_self {c : Char} (h : ¬(65 ≤ c.toNat ∧ c.toNat ≤ 90)) :
    c.toLower = c := by
  unfold Char.toLower
  exact if_neg h

theorem char_toUpper_eq_self {c : Char} (h : ¬(97 ≤ c.toNat ∧ c.toNat ≤ 122)) :
    c.toUpper = c := by
  unfold Char.toUpper
  exact if_neg h

theorem char_toLower_toNat_of_upper {c : Char} (h1 : 65 ≤ c.toNat) (h2 : c.toNat ≤ 90) :
    c.toLower.toNat = c.toNat + 32 := by
  unfold Char.toLower
  rw [if_pos ⟨h1, h2⟩]
  exact char_toNat_ofNat_valid _ (Or.inl (by omega))

theorem char_toUpper_of_lower {c : Char} (h1 : 97 ≤ c.toNat) (h2 : c.toNat ≤ 122) :
    c.toUpper = Char.ofNat (c.toNat - 32) := by
  unfold Char.toUpper
  exact if_pos ⟨h1, h2⟩

theorem char_toUpper_toNat_of_lower {c : Char} (h1 : 97 ≤ c.toNat) (h2 : c.toNat ≤ 122) :
    c.toUpper.toNat = c.toNat - 32 := by
  rw [char_toUpper_of_lower h1 h2]
  exact char_toNat_ofNat_valid _ (Or.inl (by omega))

theorem char_case_det_aux {c1 c2 : Char} (h : c1.toLower = c2.toLower)
    (hu1 : 65 ≤ c1.toNat ∧ c1.toNat ≤ 90) (hu2 : ¬(65 ≤ c2.toNat ∧ c2.toNat ≤ 90)) :
    c1.toUpper = c2.toUpper ∧ c1.isAlpha = c2.isAlpha := by
  have hc2 : c2.toLower = c2 := char_toLower_eq_self hu2
  have t1 := char_toLower_toNat_of_upper hu1.1 hu1.2
  have e2 : c2.toNat = c1.toNat + 32 := by
    rw [hc2] at h
    have := congrArg Char.toNat h
    omega
  constructor
  · have hup1 : c1.toUpper = c1 := char_toUpper_eq_self (by omega)
    have hup2 : c2.toUpper = Char.ofNat (c2.toNat - 32) :=
      char_toUpper_of_lower (by omega) (by omega)
    rw [hup1, hup2, e2, show c1.toNat + 32 - 32 = c1.toNat by omega, Char.ofNat_toNat]
  · have a1 : c1.isAlpha = true := (char_isAlpha_iff c1).mpr (Or.inl hu1)
    have a2 : c2.isAlpha = true := (char_isAlpha_iff c2).mpr (Or.inr (by omega))
    rw [a1, a2]

theorem char_case_det {c1 c2 : Char} (h : c1.toLower = c2.toLower) :
    c1.toUpper = c2.toUpper ∧ c1.isAlpha = c2.isAlpha := by
  by_cases hu1 : 65 ≤ c1.toNat ∧ c1.toNat ≤ 90
  · by_cases hu2 : 65 ≤ c2.toNat ∧ c2.toNat ≤ 90
    · have e : c1.toNat = c2.toNat := by
        have t1 := char_toLower_toNat_of_upper hu1.1 hu1.2
        have t2 := char_toLower_toNat_of_upper hu2.1 hu2.2
        have := congrArg Char.toNat h
        omega
      cases char_eq_of_toNat_eq e
      exact ⟨rfl, rfl⟩
    · exact char_case_det_aux h hu1 hu2
  · by_cases hu2 : 65 ≤ c2.toNat ∧ c2.toNat ≤ 90
    · have := char_case_det_aux h.symm hu2 hu1
      exact ⟨this.1.symm, this.2.symm⟩
    · have hc1 : c1.toLower = c1 := char_toLower_eq_self hu1
      have hc2 : c2.toLower = c2 := char_toLower_eq_self hu2
      rw [hc1, hc2] at h
      cases h
      exact ⟨rfl, rfl⟩

theorem char_eq_of_toLower_eq_not_alpha {c1 c2 : Char} (h : c1.toLower = c2.toLower)
    (ha : c1.isAlpha = false) : c1 = c2 := by
  have hu1 : ¬(65 ≤ c1.toNat ∧ c1.toNat ≤ 90) := by
    intro hcon
    have := (char_isAlpha_iff c1).mpr (Or.inl hcon)
    rw [ha] at this
    exact absurd this (by simp)
  have ha2 : c2.isAlpha = false := by
    have := (char_case_det h).2
    rw [ha] at this
    exact this.symm
  have hu2 : ¬(65 ≤ c2.toNat ∧ c2.toNat ≤ 90) := by
    intro hcon
    have := (char_isAlpha_iff c2).mpr (Or.inl hcon)
    rw [ha2] at this
    exact absurd this (by simp)
  rw [char_toLower_eq_self hu1, char_toLower_eq_self hu2] at h
  exact h

theorem char_toLower_toLower (c : Char) : c.toLower.toLower = c.toLower := by
  by_cases hu : 65 ≤ c.toNat ∧ c.toNat ≤ 90
  · have t := char_toLower_toNat_of_upper hu.1 hu.2
    exact char_toLower_eq_self (by omega)
  · rw [char_toLower_eq_self hu]
    exact char_toLower_eq_self hu

theorem char_toLower_toUpper (c : Char) : c.toUpper.toLower = c.toLower := by
  by_cases hl : 97 ≤ c.toNat ∧ c.toNat ≤ 122
  · have t := char_toUpper_toNat_of_lower hl.1 hl.2
    have hup : 65 ≤ c.toUpper.toNat ∧ c.toUpper.toNat ≤ 90 := by omega
    apply char_eq_of_toNat_eq
    rw [char_toLower_toNat_of_upper hup.1 hup.2, t,
      char_toLower_eq_self (show ¬(65 ≤ c.toNat ∧ c.toNat ≤ 90) by omega)]
    omega
  · rw [char_toUpper_eq_self hl]

theorem pyLower_titleGo (b : Bool) (l : List Char) :
    pyLower (titleGo b l) = pyLower l := by
  induction l generalizing b with
  | nil => rfl
  | cons c cs ih =>
    show Char.toLower _ :: pyLower (titleGo c.isAlpha cs) = Char.toLower c :: pyLower cs
    rw [ih c.isAlpha]
    congr 1
    by_cases ha : c.isAlpha
    · by_cases hb : b
      · simp [ha, hb, char_toLower_toLower]
      · simp [ha, hb, char_toLower_toUpper]
    · simp [ha]

theorem titleGo_congr (l1 : List Char) : ∀ (l2 : List Char) (b : Bool),
    pyLower l1 = pyLower l2 → titleGo b l1 = titleGo b l2 := by
  induction l1 with
  | nil =>
    intro l2 b h
    cases l2 with
    | nil => rfl
    | cons c2 t2 => exact absurd h (by simp [pyLower])
  | cons c1 t1 ih =>
    intro l2 b h
    cases l2 with
    | nil => exact absurd h (by simp [pyLower])
    | cons c2 t2 =>
      simp only [pyLower, List.map_cons, List.cons.injEq] at h
      obtain ⟨hhead, htail⟩ := h
      have hdet := char_case_det hhead
      show (if c1.isAlpha then (if b then c1.toLower else c1.toUpper) else c1) ::
          titleGo c1.isAlpha t1 =
        (if c2.isAlpha then (if b then c2.toLower else c2.toUpper) else c2) ::
          titleGo c2.isAlpha t2
      rw [hdet.2, ih t2 c2.isAlpha htail]
      congr 1
      by_cases ha : c2.isAlpha
      · by_cases hb : b
        · simp [ha, hb, hhead]
        · simp [ha, hb, hdet.1]
      · have := char_eq_of_toLower_eq_not_alpha hhead
          (by rw [hdet.2]; simpa using ha)
        simp [ha, this]

/-- Every name of the language table is already in title case. -/
theorem lang_title_fix : ∀ pr ∈ LANG_CODES, pyTitle pr.1.data = pr.1.data := by
  decide

/-- Looking a table key up succeeds with its code. -/
theorem lang_lookup_key : ∀ pr ∈ LANG_CODES, langLookup pr.1 = some pr.2 := by
  decide

/-- C3: in the AskLanguage stage, a message that is any capitalization
of a supported language name (surrounding whitespace allowed) is
accepted: the canonical name and its short code are stored and the
stage becomes AskSymptoms; a message matching no supported name leaves
the state untouched (stage still AskLanguage) and the bot reply is the
untranslated literal listing the supported languages alphabetically,
whatever the translation oracle does. -/
theorem claim3_ask_language (g : Gemini) (message : String)
    (history0 : List (String × String)) (state : ChatState)
    (hst : state.stage = Stage.ask_language) :
    (∀ pr, pr ∈ LANG_CODES →
      pyLower (pyStrip message.data) = pyLower pr.1.data →
      (process_chat g none message history0 state).state.stage = Stage.ask_symptoms ∧
      (process_chat g none message history0 state).state.language = some pr.1 ∧
      (process_chat g none message history0 state).state.lang_code = some pr.2) ∧
    ((∀ pr, pr ∈ LANG_CODES → pyLower (pyStrip message.data) ≠ pyLower pr.1.data) →
      (process_chat g none message history0 state).state = state ∧
      (process_chat g none message history0 state).history.getLast?.map Prod.snd =
        some ("Sorry, '" ++ message ++ "' is not a supported language. Please select from: " ++
          available_languages) ∧
      available_languages = "Arabic, Bengali, Chinese, English, French, German, Hindi, Italian, Japanese, Kannada, Korean, Portuguese, Russian, Spanish, Tamil, Telugu, Thai, Turkish, Ukrainian, Vietnamese") := by
  obtain ⟨stg, lang, lc, sul, sen, aul, aen, den, dcf, hman, ts⟩ := state
  have h2 : stg = Stage.ask_language := hst
  subst h2
  constructor
  · intro pr hmem hlow
    have htitle : pyTitle (pyStrip message.data) = pr.1.data :=
      (titleGo_congr _ _ false hlow).trans (lang_title_fix pr hmem)
    have hsel : String.mk (pyTitle (pyStrip message.data)) = pr.1 := by
      rw [htitle]
    have hfound : langLookup (String.mk (pyTitle (pyStrip message.data))) = some pr.2 := by
      rw [hsel]
      exact lang_lookup_key pr hmem
    simp only [process_chat, step_stage, step_ask_language, hfound]
    refine ⟨by trivial, ?_, by trivial⟩
    show some (String.mk (pyTitle (pyStrip message.data))) = some pr.1
    rw [hsel]
  · intro hall
    have hnone : langLookup (String.mk (pyTitle (pyStrip message.data))) = none := by
      cases hl : langLookup (String.mk (pyTitle (pyStrip message.data))) with
      | none => rfl
      | some code =>
        obtain ⟨pr, hmem, hname, hcode⟩ := langLookup_some _ _ hl
        have hdata : pr.1.data = pyTitle (pyStrip message.data) := by
          rw [hname]
        have : pyLower pr.1.data = pyLower (pyStrip message.data) := by
          rw [hdata]
          exact pyLower_titleGo false _
        exact absurd this.symm (hall pr hmem)
    simp only [process_chat, step_stage, step_ask_language, hnone]
    refine ⟨by trivial, ?_, by decide⟩
    rw [getLast_setLast]
    rfl

/-- Witness for C3: a mixed-case supported name is accepted and an
unsupported name is rejected with the state unchanged. -/
theorem claim3_ask_language_witness :
    (process_chat oracleOk none " eNGLish " [] initialize_chat_state).state.stage =
      Stage.ask_symptoms ∧
    (process_chat oracleOk none " eNGLish " [] initialize_chat_state).state.lang_code =
      some "en" ∧
    (process_chat oracleOk none "Klingon" [] initialize_chat_state).state =
      initialize_chat_state := by
  refine ⟨?_, ?_, ?_⟩
  · exact ((claim3_ask_language oracleOk " eNGLish " [] initialize_chat_state rfl).1
      ("English", "en") (by decide) (by decide)).1
  · exact ((claim3_ask_language oracleOk " eNGLish " [] initialize_chat_state rfl).1
      ("English", "en") (by decide) (by decide)).2.2
  · exact ((claim3_ask_language oracleOk "Klingon" [] initialize_chat_state rfl).2
      (by decide)).1
